import Mathlib

/-!
Verification of the offline-first synchronization engine of the form app.

The development shallowly embeds the client-side persistence layer
(`src/lib/db.ts`), the sync orchestrator (`src/lib/sync.ts`), the offline
credential cache (`src/lib/auth.ts`) and the grading API route
(`src/app/api/grading/route.ts`) into Lean.  JS `Date` values are modelled
as `Nat` timestamps, JS strings as Lean `String`s (and, for the credential
round-trip, as lists of UTF-16 code units), nullable values as `Option`,
and the IndexedDB tables as Lean lists carrying their primary keys.
Network I/O is modelled by an environment (`SyncEnv`) that fixes the
outcome of each fetch, plus an explicit `Server` state for the grading
endpoint so that a push is visible to the subsequent pull.
-/

namespace FormApp

/-- JS string truthiness for an optional string: `null`/`undefined` and the
empty string are falsy, every other string is truthy. -/
def jsTruthyStr : Option String → Bool
  | none => false
  | some s => !s.isEmpty

/-- Lookup in an association list keyed by `Int`, mirroring a JS object
indexed by a numeric key (`obj[k]`). -/
def assocGet {β : Type} (m : List (Int × β)) (k : Int) : Option β :=
  match m with
  | [] => none
  | (k', v) :: rest => if k' = k then some v else assocGet rest k

/-- Update/insert in an association list keyed by `Int`, mirroring the JS
assignment `obj[k] = v`. -/
def assocSet {β : Type} (m : List (Int × β)) (k : Int) (v : β) : List (Int × β) :=
  match m with
  | [] => [(k, v)]
  | (k', v') :: rest => if k' = k then (k, v) :: rest else (k', v') :: assocSet rest k v

-- ============ DATA MODEL (src/lib/db.ts type definitions) ============

/-- Lifecycle status of an `OfflineSubmission` (`src/lib/db.ts`,
`status: 'pending' | 'syncing' | 'synced' | 'failed'`). -/
inductive SubStatus where
  | pending
  | syncing
  | synced
  | failed
deriving DecidableEq, Repr

/-- Lifecycle status of a `PendingImage` (`src/lib/db.ts`,
`status: 'pending' | 'uploading' | 'uploaded' | 'failed'`). -/
inductive ImgStatus where
  | pending
  | uploading
  | uploaded
  | failed
deriving DecidableEq, Repr

/-- `AnswerData` from `src/lib/db.ts`, with the extra `marksAwarded` slot the
sync code writes dynamically (`(updatedAnswers[questionId] as any).marksAwarded`). -/
structure AnswerData where
  text : Option String := none
  selectedOptions : Option (List Int) := none
  rankingOrder : Option (List Int) := none
  localImageId : Option Nat := none
  imageUrl : Option String := none
  marksAwarded : Option Int := none
deriving DecidableEq, Repr

/-- The `answers` record of a submission: a JS object keyed by question id. -/
def Answers := List (Int × AnswerData)
deriving DecidableEq, Repr

/-- `OfflineSubmission` from `src/lib/db.ts`.  `localId` is the Dexie
auto-increment primary key; records in the store always carry it. -/
structure OfflineSubmission where
  localId : Nat
  clientSubmissionId : String
  formId : Nat
  formVersion : String
  schoolId : Nat
  studentFirstName : String
  studentLastName : String
  selectedLanguage : String
  totalMarks : Option Int := none
  geolocation : Option String := none
  gender : String
  classGrade : Int
  section' : String
  answers : Answers
  status : SubStatus
  createdAt : Nat
  syncedAt : Option Nat := none
  serverSubmissionId : Option Nat := none
  errorMessage : Option String := none
  submittedByTeacher : Option Nat := none
deriving DecidableEq, Repr

/-- `PendingImage` from `src/lib/db.ts`; the blob is kept as raw bytes. -/
structure PendingImage where
  localId : Nat
  submissionLocalId : Nat
  questionId : Int
  imageBlob : List Nat := []
  fileName : String := ""
  status : ImgStatus
  cloudinaryUrl : Option String := none
  createdAt : Nat := 0
deriving DecidableEq, Repr

/-- `OfflineGrade` from `src/lib/db.ts`; `id` is the Dexie auto-increment
primary key, `submissionId`/`answerId` are `Int` because the code uses
negative ids for offline-only entities. -/
structure OfflineGrade where
  id : Nat
  submissionId : Int
  answerId : Int
  marks : Int
  gradedAt : Nat
  synced : Bool
deriving DecidableEq, Repr

/-- `SyncedAnswer` from `src/lib/db.ts`. -/
structure SyncedAnswer where
  answerId : Int
  questionId : Int
  answerText : Option String := none
  answerImageUrl : Option String := none
  marksAwarded : Option Int := none
  questionText : String := ""
  questionType : String := ""
  maxMarks : Int := 0
deriving DecidableEq, Repr

/-- `SyncedSubmission` from `src/lib/db.ts`: the local read cache of a
server-owned submission ("ServerMirror"). -/
structure SyncedSubmission where
  submissionId : Int
  studentFirstName : String := ""
  studentLastName : String := ""
  classGrade : Int := 0
  section' : String := ""
  submittedAt : Nat := 0
  status : String
  marksObtained : Option Int := none
  assessmentId : Nat := 0
  assessmentTitle : String := ""
  submittedByTeacher : Nat
  subjectiveAnswers : List SyncedAnswer
  cachedAt : Nat
deriving DecidableEq, Repr

/-- `TeacherSession` from `src/lib/db.ts` (singleton row with `id = 1`). -/
structure TeacherSession where
  userId : Nat
  username : String := ""
  fullName : String := ""
  role : String := ""
  passwordHash : String := ""
  storedPassword : String := ""
  canEdit : Bool := false
  loggedInAt : Nat := 0
deriving DecidableEq, Repr

/-- `CachedSchool` from `src/lib/db.ts`. -/
structure CachedSchool where
  school_id : Nat
  school_name : String := ""
  udise_code : String := ""
  local_education_admin : String := ""
  state : String := ""
  district : String := ""
  intervention : String := ""
deriving DecidableEq, Repr

/-- `CachedImage` from `src/lib/db.ts`. -/
structure CachedImage where
  url : String
  blob : List Nat
  cachedAt : Nat
deriving DecidableEq, Repr

/-- The IndexedDB state of the app (`FormAppDB` in `src/lib/db.ts`),
restricted to the tables the sync engine touches.  `nextGradeId` carries
Dexie's auto-increment counter for `offlineGrades`. -/
structure DB where
  offlineSubmissions : List OfflineSubmission
  pendingImages : List PendingImage
  offlineGrades : List OfflineGrade
  nextGradeId : Nat
  syncedSubmissions : List SyncedSubmission
  teacherSession : Option TeacherSession
  cachedSchools : List CachedSchool := []
  schoolsLastSyncAt : Option Nat := none
  cachedImages : List CachedImage := []
deriving DecidableEq, Repr

-- ============ DB HELPERS (src/lib/db.ts functions) ============

/-- `getPendingSubmissions` from `src/lib/db.ts`: all offline submissions
whose status equals `'pending'`. -/
def getPendingSubmissions (db : DB) : List OfflineSubmission :=
  db.offlineSubmissions.filter (fun s => s.status = SubStatus.pending)

/-- `updateSubmissionStatus` from `src/lib/db.ts`: Dexie `update` by primary
key, writing `status`, `syncedAt` (`new Date()` only when the new status is
`'synced'`), `serverSubmissionId ?? null` and `errorMessage ?? null`. -/
def updateSubmissionStatus (db : DB) (localId : Nat) (status : SubStatus)
    (serverSubmissionId : Option Nat) (errorMessage : Option String) (now : Nat) : DB :=
  { db with offlineSubmissions := db.offlineSubmissions.map (fun s =>
      if s.localId = localId then
        { s with status := status,
                 syncedAt := if status = SubStatus.synced then some now else none,
                 serverSubmissionId := serverSubmissionId,
                 errorMessage := errorMessage }
      else s) }

/-- `getPendingImagesForSubmission` from `src/lib/db.ts`: all pending-image
rows owned by the given submission. -/
def getPendingImagesForSubmission (db : DB) (submissionLocalId : Nat) : List PendingImage :=
  db.pendingImages.filter (fun im => im.submissionLocalId = submissionLocalId)

/-- `updateImageStatus` from `src/lib/db.ts`: Dexie `update` by primary key,
writing `status` and `cloudinaryUrl ?? null`. -/
def updateImageStatus (db : DB) (localId : Nat) (status : ImgStatus)
    (cloudinaryUrl : Option String) : DB :=
  { db with pendingImages := db.pendingImages.map (fun im =>
      if im.localId = localId then
        { im with status := status, cloudinaryUrl := cloudinaryUrl }
      else im) }

/-- The IndexedDB index key contributed by a stored `synced` value.  Every
writer of the `offlineGrades` table (`saveOfflineGrade`,
`markGradesAsSynced` in `src/lib/db.ts`) stores `synced` as a JS boolean,
and booleans are not valid IndexedDB keys; a record whose indexed property
is not a valid key is simply absent from that index (Dexie stores the
boolean as-is, it does not convert `false` to `0`). -/
def syncedIndexKey (_stored : Bool) : Option Int := none

/-- `getPendingOfflineGrades` from `src/lib/db.ts`:
`db.offlineGrades.where('synced').equals(0).toArray()`.  The query walks
the `synced` index looking for the key `0`, so a row participates only if
its stored `synced` value has a valid index key equal to `0`.  Since every
writer stores a JS boolean (see `syncedIndexKey`), no row ever does and
the query always returns the empty list — the in-code comment "false is
stored as 0" is wrong. -/
def getPendingOfflineGrades (db : DB) : List OfflineGrade :=
  db.offlineGrades.filter (fun g =>
    match syncedIndexKey g.synced with
    | some k => k == 0
    | none => false)

/-- `markGradesAsSynced` from `src/lib/db.ts`: for each id, Dexie `update`
setting `synced := true`. -/
def markGradesAsSynced (db : DB) (gradeIds : List Nat) : DB :=
  gradeIds.foldl (fun d id =>
    { d with offlineGrades := d.offlineGrades.map (fun g =>
        if g.id = id then { g with synced := true } else g) }) db

/-- First grade with the given composite key, mirroring
`db.offlineGrades.where('[submissionId+answerId]').equals([s, a]).first()`. -/
def findGradeByKey (grades : List OfflineGrade) (submissionId answerId : Int) :
    Option OfflineGrade :=
  grades.find? (fun g => g.submissionId == submissionId && g.answerId == answerId)

/-- `saveOfflineGrade` from `src/lib/db.ts`: upsert keyed on
`(submissionId, answerId)` — update the existing row in place (new marks,
new `gradedAt`, `synced` reset to false) or add a fresh row — and then
update the cached `SyncedSubmission` projection's `marksAwarded`. -/
def saveOfflineGrade (db : DB) (submissionId answerId : Int) (marks : Int) (now : Nat) : DB :=
  let db1 : DB :=
    match findGradeByKey db.offlineGrades submissionId answerId with
    | some existing =>
        { db with offlineGrades := db.offlineGrades.map (fun g =>
            if g.id = existing.id then
              { g with marks := marks, gradedAt := now, synced := false }
            else g) }
    | none =>
        { db with
            offlineGrades := db.offlineGrades ++
              [{ id := db.nextGradeId, submissionId := submissionId,
                 answerId := answerId, marks := marks, gradedAt := now,
                 synced := false }],
            nextGradeId := db.nextGradeId + 1 }
  match db1.syncedSubmissions.find? (fun s => s.submissionId == submissionId) with
  | none => db1
  | some _ =>
     { db1 with syncedSubmissions := db1.syncedSubmissions.map (fun s =>
         if s.submissionId = submissionId then
           { s with subjectiveAnswers := s.subjectiveAnswers.map (fun a =>
               if a.answerId = answerId then { a with marksAwarded := some marks } else a) }
         else s) }

/-- Dexie `put` on the `syncedSubmissions` table: replace the row with the
same primary key, or insert. -/
def putSyncedSubmission (tbl : List SyncedSubmission) (s : SyncedSubmission) :
    List SyncedSubmission :=
  if tbl.any (fun t => t.submissionId == s.submissionId) then
    tbl.map (fun t => if t.submissionId = s.submissionId then s else t)
  else
    tbl ++ [s]

/-- `cacheSyncedSubmissions` from `src/lib/db.ts`: `bulkPut` of the freshly
pulled submissions. -/
def cacheSyncedSubmissions (db : DB) (subs : List SyncedSubmission) : DB :=
  { db with syncedSubmissions := subs.foldl putSyncedSubmission db.syncedSubmissions }

/-- `cacheImage` from `src/lib/db.ts`: `put` keyed by url (no-op on falsy
url or blob). -/
def cacheImage (db : DB) (url : String) (blob : List Nat) (now : Nat) : DB :=
  if url.isEmpty then db
  else
    let entry : CachedImage := { url := url, blob := blob, cachedAt := now }
    if db.cachedImages.any (fun c => c.url == url) then
      { db with cachedImages := db.cachedImages.map (fun c => if c.url = url then entry else c) }
    else
      { db with cachedImages := db.cachedImages ++ [entry] }

/-- `shouldSyncSchools` from `src/lib/db.ts`: no recorded sync, or at least
24 hours elapsed. -/
def SCHOOLS_SYNC_INTERVAL_MS : Nat := 24 * 60 * 60 * 1000

/-- `shouldSyncSchools` from `src/lib/db.ts`. -/
def shouldSyncSchools (db : DB) (now : Nat) : Bool :=
  match db.schoolsLastSyncAt with
  | none => true
  | some t => decide (SCHOOLS_SYNC_INTERVAL_MS ≤ now - t)

/-- `cacheSchools` from `src/lib/db.ts`: atomic clear + bulkPut, then
`markSchoolsSynced`. -/
def cacheSchools (db : DB) (schools : List CachedSchool) (now : Nat) : DB :=
  { db with cachedSchools := schools, schoolsLastSyncAt := some now }

-- ============ SERVER MODEL (src/app/api/grading/route.ts) ============

/-- One row of the `GET /api/grading` response for a submission's subjective
answer (`src/app/api/grading/route.ts`, answers query). -/
structure ServerAnswerRow where
  answer_id : Int
  question_id : Int := 0
  answer_text : Option String := none
  answer_image_url : Option String := none
  marks_awarded : Option Int := none
  question_text : String := ""
  question_type : String := ""
  max_marks : Int := 0
deriving DecidableEq, Repr

/-- One submission row held by the grading endpoint
(`src/app/api/grading/route.ts`): the joined `submissions` row together with
its subjective `submission_answers`. -/
structure ServerSubmissionRow where
  submission_id : Int
  student_first_name : String := ""
  student_last_name : String := ""
  class_grade : Int := 0
  section' : String := ""
  submitted_at : Nat := 0
  status : String
  marks_obtained : Option Int := none
  assessment_id : Nat := 0
  assessment_title : String := ""
  submitted_by_teacher : Nat
  subjectiveAnswers : List ServerAnswerRow
deriving DecidableEq, Repr

/-- The server-side grading state visible through `/api/grading`. -/
structure Server where
  gradingSubs : List ServerSubmissionRow
deriving DecidableEq, Repr

/-- `POST /api/grading` per-answer update
(`UPDATE submission_answers SET marks_awarded = m WHERE answer_id = a`):
the update is keyed by `answer_id` alone, across all submissions. -/
def serverApplyAnswerMark (srv : Server) (answerId : Int) (marks : Int) : Server :=
  { srv with gradingSubs := srv.gradingSubs.map (fun row =>
      { row with subjectiveAnswers := row.subjectiveAnswers.map (fun a =>
          if a.answer_id = answerId then { a with marks_awarded := some marks } else a) }) }

/-- `POST /api/grading` submission-status update: `status` becomes the
truthy `completionStatus[submissionId]` hint, or `'graded'`
(`src/app/api/grading/route.ts`, lines 252-267). -/
def serverApplySubmissionStatus (srv : Server) (submissionId : Int)
    (completionStatus : List (Int × String)) : Server :=
  let newStatus :=
    match assocGet completionStatus submissionId with
    | some st => if st.isEmpty then "graded" else st
    | none => "graded"
  { srv with gradingSubs := srv.gradingSubs.map (fun row =>
      if row.submission_id = submissionId then { row with status := newStatus } else row) }

/-- The `POST /api/grading` handler (`src/app/api/grading/route.ts`):
for each submission entry apply the per-answer mark overrides, then set
the submission status from the completion hint.  The auto-grading of
objective answers and the `marks_obtained` recomputation act only on rows
and columns the sync engine never reads back (objective answers are not
part of `subjectiveAnswers`), so they are elided here. -/
def serverGradingPost (srv : Server) (grades : List (Int × List (Int × Int)))
    (completionStatus : List (Int × String)) : Server :=
  grades.foldl (fun s entry =>
    let s1 := entry.2.foldl (fun s' am => serverApplyAnswerMark s' am.1 am.2) s
    serverApplySubmissionStatus s1 entry.1 completionStatus) srv

/-- The `GET /api/grading?teacherId=X` handler
(`src/app/api/grading/route.ts`): submissions of that teacher whose status
equals the default filter `'pending'`, each with its subjective answers. -/
def serverGradingGet (srv : Server) (teacherId : Nat) : List ServerSubmissionRow :=
  srv.gradingSubs.filter (fun row =>
    row.submitted_by_teacher = teacherId && row.status == "pending")

-- ============ SYNC ENVIRONMENT (network outcomes) ============

/-- Outcome of the `POST /api/upload` call for one image: the fetch threw
(network error), the response was non-ok (HTTP status), or it succeeded
with a durable URL. -/
inductive UploadOutcome where
  | netErr (msg : String)
  | httpErr (status : Nat)
  | success (url : String)
deriving DecidableEq, Repr

/-- Outcome of the `POST /api/submit` call for one submission: the fetch
threw, the response was non-ok (with its body text), or it succeeded and
the server returned the assigned submission id. -/
inductive SubmitOutcome where
  | netErr (msg : String)
  | httpErr (body : String)
  | success (serverId : Nat)
deriving DecidableEq, Repr

/-- Outcome of the `HEAD /api/health` probe: aborted by the 3-second
timeout, failed with a network error, or answered with `response.ok`. -/
inductive ProbeOutcome where
  | timeout
  | netErr
  | response (ok : Bool)
deriving DecidableEq, Repr

/-- Outcome of a plain fetch whose caller only inspects `response.ok`
(grade push, grading pull): the fetch threw, or answered with `ok`. -/
inductive HttpOutcome where
  | thrown
  | response (ok : Bool)
deriving DecidableEq, Repr

/-- The ambient world of one sync cycle: the clock, the OS link-state
signal, and the outcome of every network call the cycle may issue.
`throwEarly` models a rejected awaited promise inside `performSync`'s `try`
block before the sub-steps run (e.g. a storage read failing), exercising
its `catch`/`finally` structure. -/
structure SyncEnv where
  now : Nat
  navigatorOnline : Bool
  probe : ProbeOutcome
  throwEarly : Option String := none
  schoolsResult : Option (List CachedSchool) := none
  uploadResult : Nat → UploadOutcome
  submitResult : Nat → Answers → SubmitOutcome
  pushOutcome : HttpOutcome
  pullOutcome : HttpOutcome
  imageFetch : String → Option (List Nat) := fun _ => none

-- ============ CONNECTIVITY (src/lib/sync.ts) ============

/-- The probe request `checkActualConnectivity` issues: a header-only
request to the health endpoint guarded by a 3000 ms abort timer. -/
structure ProbeRequest where
  url : String
  method : String
  timeoutMs : Nat
deriving DecidableEq, Repr

/-- The concrete probe of `src/lib/sync.ts` lines 112-118. -/
def healthProbeRequest : ProbeRequest :=
  { url := "/api/health", method := "HEAD", timeoutMs := 3000 }

/-- `checkActualConnectivity` from `src/lib/sync.ts`: trust an OS-offline
signal immediately (no probe); otherwise issue the health probe and
interpret its outcome.  The second component records the probe issued, if
any, so theorems can speak about probe issuance. -/
def checkActualConnectivity (navigatorOnline : Bool) (probe : ProbeOutcome) :
    Bool × Option ProbeRequest :=
  if navigatorOnline = false then
    (false, none)
  else
    match probe with
    | ProbeOutcome.timeout => (false, some healthProbeRequest)
    | ProbeOutcome.netErr => (false, some healthProbeRequest)
    | ProbeOutcome.response ok => (ok, some healthProbeRequest)

-- ============ UPLOAD PIPELINE (src/lib/sync.ts) ============

/-- Empty `AnswerData`, the result of spreading an absent JS object entry. -/
def emptyAnswer : AnswerData := {}

/-- The JS assignment
`updatedAnswers[q] = { ...updatedAnswers[q], imageUrl: url }`. -/
def setAnswerImageUrl (answers : Answers) (questionId : Int) (url : String) : Answers :=
  let base := (assocGet answers questionId).getD emptyAnswer
  assocSet answers questionId { base with imageUrl := some url }

/-- The loop body of `uploadPendingImages` (`src/lib/sync.ts` lines
416-452): process the record's images sequentially; reuse the URL of an
already-uploaded image; otherwise mark `uploading`, attempt the upload,
and on success mark `uploaded` and patch the answer, while on failure mark
`failed` and propagate the error, aborting the remaining images. -/
def uploadLoop (env : SyncEnv) (db : DB) (answers : Answers)
    (images : List PendingImage) : DB × Except String Answers :=
  match images with
  | [] => (db, Except.ok answers)
  | image :: rest =>
    if image.status = ImgStatus.uploaded ∧ jsTruthyStr image.cloudinaryUrl = true then
      uploadLoop env db
        (setAnswerImageUrl answers image.questionId (image.cloudinaryUrl.getD "")) rest
    else
      let db1 := updateImageStatus db image.localId ImgStatus.uploading none
      match env.uploadResult image.localId with
      | UploadOutcome.netErr msg =>
          (updateImageStatus db1 image.localId ImgStatus.failed none, Except.error msg)
      | UploadOutcome.httpErr status =>
          (updateImageStatus db1 image.localId ImgStatus.failed none,
           Except.error ("Upload failed: " ++ toString status))
      | UploadOutcome.success url =>
          let db2 := updateImageStatus db1 image.localId ImgStatus.uploaded (some url)
          uploadLoop env db2 (setAnswerImageUrl answers image.questionId url) rest

/-- `uploadPendingImages` from `src/lib/sync.ts`: run the upload loop over
the record's pending images, starting from a copy of its answers. -/
def uploadPendingImages (env : SyncEnv) (db : DB) (submission : OfflineSubmission) :
    DB × Except String Answers :=
  uploadLoop env db submission.answers (getPendingImagesForSubmission db submission.localId)

-- ============ PER-RECORD SYNC (src/lib/sync.ts) ============

/-- The JS statement
`if (updatedAnswers[q]) { updatedAnswers[q].marksAwarded = marks }`. -/
def attachGradeToAnswers (answers : Answers) (questionId : Int) (marks : Int) : Answers :=
  match assocGet answers questionId with
  | none => answers
  | some a => assocSet answers questionId { a with marksAwarded := some marks }

/-- `syncSubmission` from `src/lib/sync.ts`: mark `syncing`, resolve asset
URLs through the upload pipeline, attach offline grades stored under the
negative local id, POST the payload, and on success mark `synced` with the
returned server id and delete the temporary grades; on any failure
(asset-upload error, network error, non-2xx response) the `catch` block
marks the record `failed` with the error message. -/
def syncSubmission (env : SyncEnv) (db : DB) (submission : OfflineSubmission) : DB :=
  let localId := submission.localId
  let db1 := updateSubmissionStatus db localId SubStatus.syncing none none env.now
  let step := uploadPendingImages env db1 submission
  match step.2 with
  | Except.error e =>
      updateSubmissionStatus step.1 localId SubStatus.failed none (some e) env.now
  | Except.ok updatedAnswers =>
      let db2 := step.1
      let offlineGrades := db2.offlineGrades.filter
        (fun g => g.submissionId = -(localId : Int))
      let updatedAnswers2 := offlineGrades.foldl
        (fun a g => attachGradeToAnswers a (-g.answerId) g.marks) updatedAnswers
      match env.submitResult localId updatedAnswers2 with
      | SubmitOutcome.netErr msg =>
          updateSubmissionStatus db2 localId SubStatus.failed none (some msg) env.now
      | SubmitOutcome.httpErr body =>
          updateSubmissionStatus db2 localId SubStatus.failed none
            (some ("Server error: " ++ body)) env.now
      | SubmitOutcome.success serverId =>
          let db3 := updateSubmissionStatus db2 localId SubStatus.synced
            (some serverId) none env.now
          if offlineGrades.isEmpty then db3
          else
            { db3 with offlineGrades :=
                db3.offlineGrades.filter (fun g => ¬ (g.submissionId = -(localId : Int))) }

-- ============ GRADE PUSH / GRADING PULL (src/lib/sync.ts) ============

/-- The `gradesBySubmission` object built by `pushOfflineGrades`
(`src/lib/sync.ts` lines 470-476): nested record
`{ submissionId: { answerId: marks } }`. -/
def buildGradesBySubmission (grades : List OfflineGrade) : List (Int × List (Int × Int)) :=
  grades.foldl (fun acc g =>
    let cur := (assocGet acc g.submissionId).getD []
    assocSet acc g.submissionId (assocSet cur g.answerId g.marks)) []

/-- The `completionStatus` object built by `pushOfflineGrades`
(`src/lib/sync.ts` lines 479-487): for each submission with pending
grades that has a cached `SyncedSubmission`, its cached status. -/
def buildCompletionStatus (db : DB) (grades : List (Int × List (Int × Int))) :
    List (Int × String) :=
  grades.foldl (fun acc entry =>
    match db.syncedSubmissions.find? (fun s => s.submissionId == entry.1) with
    | some sub => assocSet acc entry.1 sub.status
    | none => acc) []

/-- `pushOfflineGrades` from `src/lib/sync.ts`: POST all unsynced grades
(grouped by submission, with completion hints) to `/api/grading`; on an ok
response mark them synced; on a non-ok response or a thrown fetch just log
and leave them unsynced.  Returns the new client DB and server state. -/
def pushOfflineGrades (env : SyncEnv) (db : DB) (srv : Server) : DB × Server :=
  let pendingGrades := getPendingOfflineGrades db
  if pendingGrades.isEmpty then (db, srv)
  else
    match db.teacherSession with
    | none => (db, srv)
    | some _ =>
      let gradesBySubmission := buildGradesBySubmission pendingGrades
      let completionStatus := buildCompletionStatus db gradesBySubmission
      match env.pushOutcome with
      | HttpOutcome.thrown => (db, srv)
      | HttpOutcome.response false => (db, srv)
      | HttpOutcome.response true =>
          (markGradesAsSynced db (pendingGrades.map (fun g => g.id)),
           serverGradingPost srv gradesBySubmission completionStatus)

/-- The client-side mapping of one pulled `/api/grading` submission row into
a `SyncedSubmission` (`src/lib/sync.ts` lines 296-319). -/
def mapPulledSubmission (teacherId : Nat) (now : Nat) (row : ServerSubmissionRow) :
    SyncedSubmission :=
  { submissionId := row.submission_id,
    studentFirstName := row.student_first_name,
    studentLastName := row.student_last_name,
    classGrade := row.class_grade,
    section' := row.section',
    submittedAt := row.submitted_at,
    status := row.status,
    marksObtained := row.marks_obtained,
    assessmentId := row.assessment_id,
    assessmentTitle := row.assessment_title,
    submittedByTeacher := teacherId,
    subjectiveAnswers := row.subjectiveAnswers.map (fun a =>
      { answerId := a.answer_id,
        questionId := a.question_id,
        answerText := a.answer_text,
        answerImageUrl := a.answer_image_url,
        marksAwarded := a.marks_awarded,
        questionText := a.question_text,
        questionType := a.question_type,
        maxMarks := a.max_marks }),
    cachedAt := now }

/-- One answer of the image-caching loop at the end of `syncGradingData`
(`src/lib/sync.ts` lines 328-341): if the answer has a truthy image URL,
fetch it and cache the blob, ignoring failures. -/
def cacheAnswerStep (env : SyncEnv) (d' : DB) (a : SyncedAnswer) : DB :=
  match a.answerImageUrl with
  | none => d'
  | some url =>
    if jsTruthyStr (some url) then
      match env.imageFetch url with
      | some blob => cacheImage d' url blob env.now
      | none => d'
    else d'

/-- The image-caching loop at the end of `syncGradingData`
(`src/lib/sync.ts` lines 327-342): process submissions and answers
sequentially. -/
def cachePulledImages (env : SyncEnv) (db : DB) (subs : List SyncedSubmission) : DB :=
  subs.foldl (fun d sub => sub.subjectiveAnswers.foldl (cacheAnswerStep env) d) db

/-- `syncGradingData` from `src/lib/sync.ts`: with a logged-in session,
GET `/api/grading?teacherId=...`, map the returned submissions and
`bulkPut` them into the local cache (wholesale, with no per-field
filtering), then cache the answer images.  Any failure is swallowed. -/
def syncGradingData (env : SyncEnv) (db : DB) (srv : Server) : DB :=
  match db.teacherSession with
  | none => db
  | some session =>
    match env.pullOutcome with
    | HttpOutcome.thrown => db
    | HttpOutcome.response false => db
    | HttpOutcome.response true =>
      let rows := serverGradingGet srv session.userId
      let syncedSubs := rows.map (mapPulledSubmission session.userId env.now)
      let db1 := cacheSyncedSubmissions db syncedSubs
      cachePulledImages env db1 syncedSubs

-- ============ CYCLE ORCHESTRATION (src/lib/sync.ts) ============

/-- The module-level sync state of `src/lib/sync.ts` (`let isSyncing`). -/
structure SyncState where
  isSyncing : Bool
deriving DecidableEq, Repr

/-- Result of one entry into the orchestrator: final guard state, final
client DB, final server state, and whether the cycle body actually ran
(a guarded re-entry returns without doing any sync work). -/
structure SyncResult where
  state : SyncState
  db : DB
  server : Server
  ran : Bool

/-- `syncSchools` from `src/lib/sync.ts`: fetch the school list and replace
the cache; any failure is caught and logged, leaving the DB unchanged. -/
def syncSchools (env : SyncEnv) (db : DB) : DB :=
  match env.schoolsResult with
  | none => db
  | some schools => cacheSchools db schools env.now

/-- `performSync` from `src/lib/sync.ts`: re-entry guard on `isSyncing`;
then, inside `try`/`catch`/`finally`: time-gated schools sync, per-record
sync of every pending submission, grade push, grading pull.  A rejection
inside the `try` block (`throwEarly`) lands in the `catch`, and the
`finally` clears `isSyncing` on every path.  Listener notification is a
pure UI side effect and is not modelled. -/
def performSync (env : SyncEnv) (st : SyncState) (db : DB) (srv : Server) : SyncResult :=
  if st.isSyncing then
    { state := st, db := db, server := srv, ran := false }
  else
    match env.throwEarly with
    | some _ =>
        { state := { isSyncing := false }, db := db, server := srv, ran := true }
    | none =>
        let db1 := if shouldSyncSchools db env.now then syncSchools env db else db
        let pendingSubmissions := getPendingSubmissions db1
        let db2 := pendingSubmissions.foldl (fun d sub => syncSubmission env d sub) db1
        let pushed := pushOfflineGrades env db2 srv
        let db4 := syncGradingData env pushed.1 pushed.2
        { state := { isSyncing := false }, db := db4, server := pushed.2, ran := true }

/-- `triggerSync` from `src/lib/sync.ts`: bail out when the OS reports
offline, when a cycle is already running, or when the connectivity probe
fails; otherwise enter `performSync`. -/
def triggerSync (env : SyncEnv) (st : SyncState) (db : DB) (srv : Server) : SyncResult :=
  if env.navigatorOnline = false then
    { state := st, db := db, server := srv, ran := false }
  else if st.isSyncing then
    { state := st, db := db, server := srv, ran := false }
  else if (checkActualConnectivity env.navigatorOnline env.probe).1 = false then
    { state := st, db := db, server := srv, ran := false }
  else
    performSync env st db srv

/-- `handleOnline` from `src/lib/sync.ts`: after the settle delay, probe
and enter `performSync` (whose own guard rejects re-entry). -/
def handleOnline (env : SyncEnv) (st : SyncState) (db : DB) (srv : Server) : SyncResult :=
  if (checkActualConnectivity env.navigatorOnline env.probe).1 then
    performSync env st db srv
  else
    { state := st, db := db, server := srv, ran := false }

/-- `handleFocus` from `src/lib/sync.ts`: only when the OS reports online
and no cycle is running, probe and enter `performSync`. -/
def handleFocus (env : SyncEnv) (st : SyncState) (db : DB) (srv : Server) : SyncResult :=
  if env.navigatorOnline ∧ st.isSyncing = false then
    if (checkActualConnectivity env.navigatorOnline env.probe).1 then
      performSync env st db srv
    else
      { state := st, db := db, server := srv, ran := false }
  else
    { state := st, db := db, server := srv, ran := false }

-- ============ CREDENTIAL OBFUSCATION (src/lib/auth.ts) ============

/-- JS strings are modelled as lists of UTF-16 code units for the
credential round-trip, because `btoa` is only defined on strings whose
code units fit in a byte. -/
def JSString := List Nat
deriving DecidableEq, Repr

/-- The standard base64 alphabet as ASCII codes (`A-Z`, `a-z`, `0-9`,
`+`, `/`), used by the platform's `btoa`/`atob`. -/
def b64Alphabet : List Nat :=
  (List.range 26).map (fun n => n + 65) ++
  (List.range 26).map (fun n => n + 97) ++
  (List.range 10).map (fun n => n + 48) ++ [43, 47]

/-- Character for a sextet value. -/
def sextetToChar (n : Nat) : Nat := b64Alphabet.getD n 0

/-- Sextet value of a base64 character (only ever applied to characters
produced by `sextetToChar`). -/
def charToSextet (c : Nat) : Nat := b64Alphabet.indexOf c

/-- The platform `btoa` byte-to-base64 encoding (RFC 4648 with `=`
padding, char code 61), on strings all of whose code units are bytes. -/
def b64encode : List Nat → List Nat
  | [] => []
  | [a] => [sextetToChar (a / 4), sextetToChar (a % 4 * 16), 61, 61]
  | [a, b] =>
      [sextetToChar (a / 4), sextetToChar (a % 4 * 16 + b / 16),
       sextetToChar (b % 16 * 4), 61]
  | a :: b :: c :: rest =>
      sextetToChar (a / 4) :: sextetToChar (a % 4 * 16 + b / 16) ::
      sextetToChar (b % 16 * 4 + c / 64) :: sextetToChar (c % 64) :: b64encode rest

/-- The platform `atob` base64-to-byte decoding, on well-formed base64
input (which is all the code ever feeds it). -/
def b64decode : List Nat → List Nat
  | c1 :: c2 :: c3 :: c4 :: rest =>
      let s1 := charToSextet c1
      let s2 := charToSextet c2
      if c3 = 61 then [s1 * 4 + s2 / 16]
      else
        let s3 := charToSextet c3
        if c4 = 61 then [s1 * 4 + s2 / 16, s2 % 16 * 16 + s3 / 4]
        else
          let s4 := charToSextet c4
          (s1 * 4 + s2 / 16) :: (s2 % 16 * 16 + s3 / 4) :: (s3 % 4 * 64 + s4) :: b64decode rest
  | _ => []

/-- The fixed XOR key `'pijam-offline-key'` of `src/lib/auth.ts`, as
UTF-16 code units. -/
def xorKey : List Nat := "pijam-offline-key".data.map Char.toNat

/-- The XOR loop shared by `encryptPassword` and `decryptPassword`
(`src/lib/auth.ts`): each code unit is XORed with
`key.charCodeAt(i % key.length)`. -/
def xorWithKey (i : Nat) : List Nat → List Nat
  | [] => []
  | c :: rest => (c ^^^ xorKey.getD (i % xorKey.length) 0) :: xorWithKey (i + 1) rest

/-- `encryptPassword` from `src/lib/auth.ts`: XOR with the fixed key, then
`btoa`.  `btoa` throws `InvalidCharacterError` when any code unit of its
argument exceeds 255 (WHATWG spec), modelled as `none`. -/
def encryptPassword (password : List Nat) : Option (List Nat) :=
  let result := xorWithKey 0 password
  if ∀ c ∈ result, c < 256 then some (b64encode result) else none

/-- `decryptPassword` from `src/lib/auth.ts`: `atob`, then XOR with the
same fixed key. -/
def decryptPassword (encrypted : List Nat) : List Nat :=
  xorWithKey 0 (b64decode encrypted)

/-- The password check of the offline branch of `loginTeacher`
(`src/lib/auth.ts` lines 128-129): accept exactly when the supplied
credential equals the decrypted stored one. -/
def offlineLoginAccepts (storedPassword : List Nat) (supplied : List Nat) : Bool :=
  supplied == decryptPassword storedPassword

-- ============ CLAIM-LEVEL DEFINITIONS ============

/-- One step of `buildGradesBySubmission`. -/
def buildGradesStep (acc : List (Int × List (Int × Int))) (g : OfflineGrade) :
    List (Int × List (Int × Int)) :=
  let cur := (assocGet acc g.submissionId).getD []
  assocSet acc g.submissionId (assocSet cur g.answerId g.marks)

/-- The invariant of the claim about `OfflineSubmission` lifecycles:
`status = 'synced'` holds exactly when `serverSubmissionId` is non-null. -/
def SyncedIffServerId (db : DB) : Prop :=
  ∀ s ∈ db.offlineSubmissions,
    (s.status = SubStatus.synced ↔ s.serverSubmissionId.isSome = true)

/-- An operation on the `offlineSubmissions` table: a direct
`updateSubmissionStatus` call, or a whole `syncSubmission` run. -/
inductive SubmissionOp where
  | upd (localId : Nat) (status : SubStatus) (sid : Option Nat) (err : Option String) (now : Nat)
  | syncOne (env : SyncEnv) (sub : OfflineSubmission)

/-- Apply one `SubmissionOp` to the database. -/
def applySubmissionOp (db : DB) : SubmissionOp → DB
  | SubmissionOp.upd lid st sid err now => updateSubmissionStatus db lid st sid err now
  | SubmissionOp.syncOne env sub => syncSubmission env db sub

/-- An `updateSubmissionStatus` call shaped like the ones the code makes:
a non-null server id is passed exactly on the `'synced'` transition (the
server contract guarantees `result.submissionId` is present).  Every call
site in `src/lib/sync.ts` has this shape. -/
def OpWellFormed : SubmissionOp → Prop
  | SubmissionOp.upd _ st sid _ _ => (st = SubStatus.synced ↔ sid.isSome = true)
  | SubmissionOp.syncOne _ _ => True

/-- At most one `offlineGrades` row per `(submissionId, answerId)` key. -/
def AtMostOnePerKey (grades : List OfflineGrade) : Prop :=
  grades.Pairwise (fun g1 g2 =>
    g1.submissionId = g2.submissionId → g1.answerId = g2.answerId → False)

/-- One `saveOfflineGrade` call, packaged for sequencing. -/
def applySaveOp (db : DB) (c : Int × Int × Int × Nat) : DB :=
  saveOfflineGrade db c.1 c.2.1 c.2.2.1 c.2.2.2

/-- The error with which `syncSubmission` would fail on this record, if
any: the upload-pipeline error, or the submit error; `none` means the
record syncs successfully.  This mirrors `syncSubmission`'s control flow
but reads only the record's own images and grades, so it is invariant
under changes to unrelated records. -/
def submissionSyncError (env : SyncEnv) (db : DB) (sub : OfflineSubmission) : Option String :=
  match (uploadLoop env db sub.answers (getPendingImagesForSubmission db sub.localId)).2 with
  | Except.error e => some e
  | Except.ok updatedAnswers =>
      let offlineGrades := db.offlineGrades.filter
        (fun g => g.submissionId = -(sub.localId : Int))
      let updatedAnswers2 := offlineGrades.foldl
        (fun a g => attachGradeToAnswers a (-g.answerId) g.marks) updatedAnswers
      match env.submitResult sub.localId updatedAnswers2 with
      | SubmitOutcome.netErr msg => some msg
      | SubmitOutcome.httpErr body => some ("Server error: " ++ body)
      | SubmitOutcome.success _ => none

/-- The local projection of a grading field: the `marksAwarded` the cached
`SyncedSubmission` shows for `(submissionId, answerId)`. -/
def snapshotMarks (db : DB) (submissionId answerId : Int) : Option Int :=
  match db.syncedSubmissions.find? (fun s => s.submissionId == submissionId) with
  | none => none
  | some sub =>
      match sub.subjectiveAnswers.find? (fun a => a.answerId == answerId) with
      | none => none
      | some a => a.marksAwarded

/-- The grade-merge claim, as stated: for every unsynced `OfflineGrade` at
the start of a cycle, after the cycle either the edit is marked synced and
the cached snapshot reflects its value, or it is still unsynced and the
local projection still shows the locally edited value. -/
def gradeMergeProperty (env : SyncEnv) (st : SyncState) (db : DB) (srv : Server) : Prop :=
  ∀ g ∈ db.offlineGrades, g.synced = false →
    ((∃ h ∈ (performSync env st db srv).db.offlineGrades, h.id = g.id ∧ h.synced = true) ∧
      snapshotMarks (performSync env st db srv).db g.submissionId g.answerId = some g.marks) ∨
    ((∃ h ∈ (performSync env st db srv).db.offlineGrades, h.id = g.id ∧ h.synced = false) ∧
      snapshotMarks (performSync env st db srv).db g.submissionId g.answerId = some g.marks)

-- ============ CONCRETE SCENARIO INPUTS ============

/-- A logged-in teacher session. -/
def teacherSession7 : TeacherSession := { userId := 7 }

/-- An unsynced offline grade: 4 marks for answer 9 of submission 10. -/
def grade10x9 : OfflineGrade :=
  { id := 1, submissionId := 10, answerId := 9, marks := 4, gradedAt := 50, synced := false }

/-- The cached `SyncedSubmission` projection of submission 10, already
showing the locally edited 4 marks for answer 9 (as `saveOfflineGrade`
leaves it). -/
def cachedSub10 : SyncedSubmission :=
  { submissionId := 10, status := "pending", submittedByTeacher := 7,
    subjectiveAnswers := [{ answerId := 9, questionId := 3, marksAwarded := some 4 }],
    cachedAt := 40 }

/-- A database holding exactly the unsynced grade and its cached
projection, with a logged-in session and a fresh schools cache. -/
def dbWithEdit : DB :=
  { offlineSubmissions := [], pendingImages := [], offlineGrades := [grade10x9],
    nextGradeId := 2, syncedSubmissions := [cachedSub10],
    teacherSession := some teacherSession7, schoolsLastSyncAt := some 100 }

/-- The server's copy of submission 10: still pending, with the pre-edit
2 marks for answer 9. -/
def serverRow10 : ServerSubmissionRow :=
  { submission_id := 10, status := "pending", submitted_by_teacher := 7,
    subjectiveAnswers := [{ answer_id := 9, question_id := 3, marks_awarded := some 2 }] }

/-- The grading server holding just that row. -/
def serverWithRow10 : Server := { gradingSubs := [serverRow10] }

/-- A pending offline submission with one answer and no images. -/
def pendingSub1 : OfflineSubmission :=
  { localId := 1, clientSubmissionId := "c-1", formId := 2, formVersion := "v1",
    schoolId := 3, studentFirstName := "Asha", studentLastName := "Rao",
    selectedLanguage := "en", gender := "Female", classGrade := 4, section' := "A",
    answers := [(5, { text := some "ans" })], status := SubStatus.pending,
    createdAt := 10 }

/-- A database holding just that pending submission and a session. -/
def dbWithSub : DB :=
  { offlineSubmissions := [pendingSub1], pendingImages := [], offlineGrades := [],
    nextGradeId := 1, syncedSubmissions := [], teacherSession := some teacherSession7,
    schoolsLastSyncAt := some 100 }

/-- A cycle environment in which every network call succeeds: uploads
return a URL, the submit returns server id 501, push and pull are ok. -/
def envAllOk : SyncEnv :=
  { now := 100, navigatorOnline := true, probe := ProbeOutcome.response true,
    uploadResult := fun _ => UploadOutcome.success "https://cdn/img.jpg",
    submitResult := fun _ _ => SubmitOutcome.success 501,
    pushOutcome := HttpOutcome.response true,
    pullOutcome := HttpOutcome.response true }

/-- Two queued images of submission 1, both still pending. -/
def img1 : PendingImage :=
  { localId := 1, submissionLocalId := 1, questionId := 5, fileName := "a.jpg",
    status := ImgStatus.pending, createdAt := 9 }

/-- The second queued image of submission 1. -/
def img2 : PendingImage :=
  { localId := 2, submissionLocalId := 1, questionId := 6, fileName := "b.jpg",
    status := ImgStatus.pending, createdAt := 9 }

/-- The one-submission database with the two queued images attached. -/
def dbWithImages : DB := { dbWithSub with pendingImages := [img1, img2] }

/-- A second pending submission, local id 2. -/
def pendingSub2 : OfflineSubmission :=
  { pendingSub1 with localId := 2, clientSubmissionId := "c-2" }

/-- A database with two pending submissions, one unsynced grade and the
cached projection. -/
def dbTwoSubs : DB :=
  { offlineSubmissions := [pendingSub1, pendingSub2], pendingImages := [],
    offlineGrades := [grade10x9], nextGradeId := 2,
    syncedSubmissions := [cachedSub10], teacherSession := some teacherSession7,
    schoolsLastSyncAt := some 100 }

/-- An environment where submission 1 fails to submit while submission 2
succeeds; push and pull are ok. -/
def envMixed : SyncEnv :=
  { now := 100, navigatorOnline := true, probe := ProbeOutcome.response true,
    uploadResult := fun _ => UploadOutcome.success "https://cdn/i.jpg",
    submitResult := fun lid _ =>
      if lid = 2 then SubmitOutcome.success 900 else SubmitOutcome.netErr "boom",
    pushOutcome := HttpOutcome.response true,
    pullOutcome := HttpOutcome.response true }

/-- A cycle environment in which the grade push gets a non-ok response
while the grading pull succeeds. -/
def envPushFails : SyncEnv :=
  { now := 100, navigatorOnline := true, probe := ProbeOutcome.response true,
    uploadResult := fun _ => UploadOutcome.netErr "offline",
    submitResult := fun _ _ => SubmitOutcome.netErr "offline",
    pushOutcome := HttpOutcome.response false,
    pullOutcome := HttpOutcome.response true }

-- ============ THEOREMS ============


theorem xor_lt_256 (a b : Nat) (ha : a < 256) (hb : b < 256) : a ^^^ b < 256 := by
  have h : a ^^^ b < 2 ^ 8 := Nat.bitwise_lt (by norm_num; exact ha) (by norm_num; exact hb)
  norm_num at h
  exact h

theorem xorKey_getD_lt (j : Nat) : xorKey.getD j 0 < 128 := by
  by_cases h : j < xorKey.length
  · have h17 : xorKey.length = 17 := by decide
    exact (by decide : ∀ n : Fin 17, xorKey.getD n.val 0 < 128) ⟨j, by omega⟩
  · rw [List.getD_eq_default]
    · omega
    · omega

theorem fin64_charToSextet : ∀ n : Fin 64, charToSextet (sextetToChar n.val) = n.val := by
  decide

theorem fin64_ne_61 : ∀ n : Fin 64, sextetToChar n.val ≠ 61 := by decide

theorem charToSextet_sextetToChar (n : Nat) (h : n < 64) :
    charToSextet (sextetToChar n) = n :=
  fin64_charToSextet ⟨n, h⟩

theorem sextetToChar_ne_61 (n : Nat) (h : n < 64) : sextetToChar n ≠ 61 :=
  fin64_ne_61 ⟨n, h⟩

theorem b64decode_b64encode : ∀ l : List Nat, (∀ x ∈ l, x < 256) → b64decode (b64encode l) = l
  | [], _ => rfl
  | [a], h => by
    have ha : a < 256 := h a (by simp)
    have e1 := charToSextet_sextetToChar (a / 4) (by omega)
    have e2 := charToSextet_sextetToChar (a % 4 * 16) (by omega)
    simp only [b64encode, b64decode, e1, e2, if_pos rfl]
    simp
    omega
  | [a, b], h => by
    have ha : a < 256 := h a (by simp)
    have hb : b < 256 := h b (by simp)
    have e1 := charToSextet_sextetToChar (a / 4) (by omega)
    have e2 := charToSextet_sextetToChar (a % 4 * 16 + b / 16) (by omega)
    have e3 := charToSextet_sextetToChar (b % 16 * 4) (by omega)
    have n3 := sextetToChar_ne_61 (b % 16 * 4) (by omega)
    simp only [b64encode, b64decode, e1, e2, e3, if_neg n3, if_pos rfl]
    simp
    constructor
    · omega
    · omega
  | a :: b :: c :: rest, h => by
    have ha : a < 256 := h a (by simp)
    have hb : b < 256 := h b (by simp)
    have hc : c < 256 := h c (by simp)
    have ih := b64decode_b64encode rest (fun x hx => h x (by simp [hx]))
    have e1 := charToSextet_sextetToChar (a / 4) (by omega)
    have e2 := charToSextet_sextetToChar (a % 4 * 16 + b / 16) (by omega)
    have e3 := charToSextet_sextetToChar (b % 16 * 4 + c / 64) (by omega)
    have e4 := charToSextet_sextetToChar (c % 64) (by omega)
    have n3 := sextetToChar_ne_61 (b % 16 * 4 + c / 64) (by omega)
    have n4 := sextetToChar_ne_61 (c % 64) (by omega)
    simp only [b64encode, b64decode, e1, e2, e3, e4, if_neg n3, if_neg n4, ih]
    simp
    refine ⟨by omega, by omega, by omega⟩


/-- XOR with a byte-sized key keeps byte-sized code units byte-sized. -/
theorem xorWithKey_lt (i : Nat) (l : List Nat) (h : ∀ c ∈ l, c < 256) :
    ∀ c ∈ xorWithKey i l, c < 256 := by
  induction l generalizing i with
  | nil => intro c hc; simp [xorWithKey] at hc
  | cons a rest ih =>
    intro c hc
    simp only [xorWithKey, List.mem_cons] at hc
    rcases hc with hc | hc
    · subst hc
      exact xor_lt_256 _ _ (h a (by simp))
        (by have := xorKey_getD_lt (i % xorKey.length); omega)
    · exact ih (i + 1) (fun c hc => h c (by simp [hc])) c hc

/-- XORing twice with the key at the same offset is the identity. -/
theorem xorWithKey_involutive (i : Nat) (l : List Nat) :
    xorWithKey i (xorWithKey i l) = l := by
  induction l generalizing i with
  | nil => rfl
  | cons a rest ih => simp [xorWithKey, ih, Nat.xor_cancel_right]

/-- Round-trip of the credential obfuscation on Latin-1 strings. -/
theorem encrypt_then_decrypt (p : List Nat) (h : ∀ c ∈ p, c < 256) :
    encryptPassword p = some (b64encode (xorWithKey 0 p)) ∧
    decryptPassword (b64encode (xorWithKey 0 p)) = p := by
  have hx : ∀ c ∈ xorWithKey 0 p, c < 256 := xorWithKey_lt 0 p h
  constructor
  · unfold encryptPassword
    rw [if_pos hx]
  · unfold decryptPassword
    rw [b64decode_b64encode _ hx, xorWithKey_involutive]

/-- C10 (counterexample): the round-trip fails as universally stated — for
the one-character password `'π'` (code unit 960), `encryptPassword` throws
inside `btoa` (the XORed code unit 944 exceeds 255), so
`decryptPassword (encryptPassword p)` does not return `p`. -/
theorem c10_encrypt_roundtrip_counterexample :
    ¬ (∀ p : List Nat, (encryptPassword p).map decryptPassword = some p) := by
  intro h
  have h1 := h [960]
  have h2 : (encryptPassword [960]).map decryptPassword = none := by decide
  rw [h2] at h1
  exact Option.noConfusion h1

/-- C10 (amended): for every password all of whose UTF-16 code units fit in
a byte (every Latin-1 password, in particular every ASCII one),
`decryptPassword (encryptPassword p) = p`, and the offline login check
accepts the same credential that was stored. -/
theorem c10_encrypt_roundtrip_latin1 (p : List Nat) (h : ∀ c ∈ p, c < 256) :
    ∃ e, encryptPassword p = some e ∧ decryptPassword e = p ∧
      offlineLoginAccepts e p = true := by
  obtain ⟨he, hd⟩ := encrypt_then_decrypt p h
  refine ⟨b64encode (xorWithKey 0 p), he, hd, ?_⟩
  unfold offlineLoginAccepts
  rw [hd]
  simp

/-- C10 (witness): the round-trip at the concrete ASCII password `"hi"`. -/
theorem c10_encrypt_roundtrip_latin1_witness :
    ∃ e, encryptPassword [104, 105] = some e ∧ decryptPassword e = [104, 105] ∧
      offlineLoginAccepts e [104, 105] = true :=
  c10_encrypt_roundtrip_latin1 [104, 105] (by decide)

/-- C6: `checkActualConnectivity` returns false with no probe issued when
the OS reports offline; when the OS reports online it issues the
header-only `HEAD /api/health` probe with a 3000 ms timeout and returns
true exactly when the probe came back as a successful response —
timeout, network error and non-success status all yield false. -/
theorem c6_checkActualConnectivity_spec (navigatorOnline : Bool) (probe : ProbeOutcome) :
    (navigatorOnline = false →
      checkActualConnectivity navigatorOnline probe = (false, none)) ∧
    (navigatorOnline = true →
      (checkActualConnectivity navigatorOnline probe).2 = some healthProbeRequest ∧
      healthProbeRequest.method = "HEAD" ∧
      healthProbeRequest.url = "/api/health" ∧
      healthProbeRequest.timeoutMs = 3000 ∧
      ((checkActualConnectivity navigatorOnline probe).1 = true ↔
        probe = ProbeOutcome.response true)) := by
  constructor
  · intro h
    subst h
    rfl
  · intro h
    subst h
    refine ⟨?_, rfl, rfl, rfl, ?_⟩
    · cases probe <;> rfl
    · cases probe with
      | timeout => simp [checkActualConnectivity]
      | netErr => simp [checkActualConnectivity]
      | response ok => cases ok <;> simp [checkActualConnectivity]

/-- C6 (witness): with OS-online true and the health probe timing out, the
monitor reports offline; with OS-offline, no probe is issued. -/
theorem c6_checkActualConnectivity_spec_witness :
    checkActualConnectivity false ProbeOutcome.timeout = (false, none) ∧
    (checkActualConnectivity true ProbeOutcome.timeout).1 = false := by
  constructor
  · exact (c6_checkActualConnectivity_spec false ProbeOutcome.timeout).1 rfl
  · have h := ((c6_checkActualConnectivity_spec true ProbeOutcome.timeout).2 rfl).2.2.2.2
    simp only [iff_iff_implies_and_implies] at h
    by_contra hc
    have : ProbeOutcome.timeout = ProbeOutcome.response true := h.1 (by
      cases hb : (checkActualConnectivity true ProbeOutcome.timeout).1
      · exact absurd hb hc
      · rfl)
    exact ProbeOutcome.noConfusion this


-- ============ GRADE-TABLE LEMMAS (C2, C9) ============

/-- Setting a key makes it readable. -/
theorem assocGet_assocSet_self {β : Type} (m : List (Int × β)) (k : Int) (v : β) :
    assocGet (assocSet m k v) k = some v := by
  induction m with
  | nil => simp [assocSet, assocGet]
  | cons p rest ih =>
    by_cases h : p.1 = k
    · simp [assocSet, assocGet, h]
    · simp [assocSet, assocGet, h, ih]

/-- Setting a key leaves other keys unchanged. -/
theorem assocGet_assocSet_ne {β : Type} (m : List (Int × β)) (k k' : Int) (v : β)
    (h : k' ≠ k) : assocGet (assocSet m k v) k' = assocGet m k' := by
  induction m with
  | nil => simp [assocSet, assocGet, Ne.symm h]
  | cons p rest ih =>
    by_cases hp : p.1 = k
    · subst hp
      simp [assocSet, assocGet, Ne.symm h]
    · simp only [assocSet, if_neg hp, assocGet]
      by_cases hp' : p.1 = k'
      · simp [hp']
      · simp [hp', ih]

/-- `saveOfflineGrade` changes the `offlineGrades` table exactly by the
upsert; the projection phase touches only `syncedSubmissions`. -/
theorem saveOfflineGrade_offlineGrades (db : DB) (s a m : Int) (now : Nat) :
    (saveOfflineGrade db s a m now).offlineGrades =
      (match findGradeByKey db.offlineGrades s a with
       | some existing => db.offlineGrades.map (fun g =>
           if g.id = existing.id then
             { g with marks := m, gradedAt := now, synced := false }
           else g)
       | none => db.offlineGrades ++
           [{ id := db.nextGradeId, submissionId := s, answerId := a,
              marks := m, gradedAt := now, synced := false }]) := by
  unfold saveOfflineGrade
  cases hfind : findGradeByKey db.offlineGrades s a <;>
    simp only [hfind] <;> (cases hbar : List.find? _ _ <;> rfl)

/-- `saveOfflineGrade` does not disturb the auto-increment counter except
in the insert case, and never touches the tables other than
`offlineGrades` and `syncedSubmissions`. -/
theorem saveOfflineGrade_frame (db : DB) (s a m : Int) (now : Nat) :
    (saveOfflineGrade db s a m now).offlineSubmissions = db.offlineSubmissions ∧
    (saveOfflineGrade db s a m now).pendingImages = db.pendingImages ∧
    (saveOfflineGrade db s a m now).teacherSession = db.teacherSession := by
  unfold saveOfflineGrade
  cases hfind : findGradeByKey db.offlineGrades s a <;>
    simp only [hfind] <;> (cases hbar : List.find? _ _ <;> exact ⟨rfl, rfl, rfl⟩)

/-- `markGradesAsSynced` maps the whole table at once: a row is marked iff
its id is in the list, and nothing else about it changes. -/
theorem markGradesAsSynced_eq (db : DB) (ids : List Nat) :
    (markGradesAsSynced db ids).offlineGrades =
      db.offlineGrades.map (fun g =>
        if g.id ∈ ids then { g with synced := true } else g) := by
  induction ids generalizing db with
  | nil => simp [markGradesAsSynced]
  | cons i rest ih =>
    simp only [markGradesAsSynced, List.foldl_cons] at *
    rw [ih]
    simp only [List.map_map]
    apply List.map_congr_left
    intro g _
    by_cases hgi : g.id = i
    · by_cases hgr : g.id ∈ rest <;>
        simp [Function.comp, hgi, hgr, List.mem_cons]
    · by_cases hgr : g.id ∈ rest <;>
        simp [Function.comp, hgi, hgr, List.mem_cons]


/-- `buildGradesBySubmission` is the fold of its step function. -/
theorem buildGradesBySubmission_eq_foldl (gs : List OfflineGrade) :
    buildGradesBySubmission gs = gs.foldl buildGradesStep [] := rfl

/-- Once the nested record holds `marks = m` at `(s, a)` and every later
grade writing to `(s, a)` writes `m`, the fold keeps `(s, a) ↦ m`. -/
theorem buildGrades_preserve :
    ∀ (gs : List OfflineGrade) (acc : List (Int × List (Int × Int))) (s a m : Int),
      (∀ g' ∈ gs, g'.submissionId = s → g'.answerId = a → g'.marks = m) →
      (∃ inner, assocGet acc s = some inner ∧ assocGet inner a = some m) →
      (∃ inner, assocGet (gs.foldl buildGradesStep acc) s = some inner ∧
        assocGet inner a = some m)
  | [], _, _, _, _, _, hacc => hacc
  | g0 :: rest, acc, s, a, m, hall, hacc => by
    obtain ⟨inner, hin, hm⟩ := hacc
    rw [List.foldl_cons]
    apply buildGrades_preserve rest _ s a m (fun g' hg' => hall g' (by simp [hg']))
    by_cases hs : g0.submissionId = s
    · refine ⟨assocSet ((assocGet acc g0.submissionId).getD []) g0.answerId g0.marks, ?_, ?_⟩
      · simp only [buildGradesStep]
        rw [hs, assocGet_assocSet_self]
      · rw [hs, hin]
        simp only [Option.getD_some]
        by_cases ha : g0.answerId = a
        · rw [ha, assocGet_assocSet_self, hall g0 (by simp) hs ha]
        · rw [assocGet_assocSet_ne _ _ _ _ (fun hh => ha hh.symm), hm]
    · refine ⟨inner, ?_, hm⟩
      simp only [buildGradesStep]
      rw [assocGet_assocSet_ne _ _ _ _ (fun hh => hs hh.symm), hin]

/-- Every grade in the list whose key is written consistently ends up in
the built nested record with its marks. -/
theorem buildGrades_covers :
    ∀ (gs : List OfflineGrade) (acc : List (Int × List (Int × Int))) (g : OfflineGrade),
      g ∈ gs →
      (∀ g' ∈ gs, g'.submissionId = g.submissionId → g'.answerId = g.answerId →
        g'.marks = g.marks) →
      (∃ inner, assocGet (gs.foldl buildGradesStep acc) g.submissionId = some inner ∧
        assocGet inner g.answerId = some g.marks)
  | g0 :: rest, acc, g, hmem, hall => by
    rw [List.foldl_cons]
    rcases List.mem_cons.mp hmem with heq | hrest
    · subst heq
      apply buildGrades_preserve rest _ _ _ _ (fun g' hg' => hall g' (by simp [hg']))
      refine ⟨assocSet ((assocGet acc g.submissionId).getD []) g.answerId g.marks, ?_, ?_⟩
      · simp only [buildGradesStep]
        rw [assocGet_assocSet_self]
      · rw [assocGet_assocSet_self]
    · exact buildGrades_covers rest _ g hrest (fun g' hg' => hall g' (by simp [hg']))


/-- One `saveOfflineGrade` preserves per-key uniqueness. -/
theorem saveOfflineGrade_key_unique (db : DB) (s a m : Int) (now : Nat)
    (h : AtMostOnePerKey db.offlineGrades) :
    AtMostOnePerKey ((saveOfflineGrade db s a m now).offlineGrades) := by
  rw [AtMostOnePerKey, saveOfflineGrade_offlineGrades]
  cases hfind : findGradeByKey db.offlineGrades s a with
  | some ex =>
    refine List.Pairwise.map _ ?_ h
    intro g1 g2 h12 hsub hans
    apply h12
    · by_cases h1 : g1.id = ex.id <;> by_cases h2 : g2.id = ex.id <;>
        simp [h1, h2] at hsub ⊢ <;> exact hsub
    · by_cases h1 : g1.id = ex.id <;> by_cases h2 : g2.id = ex.id <;>
        simp [h1, h2] at hans ⊢ <;> exact hans
  | none =>
    rw [List.pairwise_append]
    refine ⟨h, List.pairwise_singleton _ _, ?_⟩
    intro g hg b hb hsub hans
    have hnone := List.find?_eq_none.mp hfind g hg
    simp only [List.mem_singleton] at hb
    subst hb
    simp only [Bool.and_eq_true, beq_iff_eq] at hnone
    exact hnone ⟨hsub, hans⟩

/-- Any sequence of `saveOfflineGrade` calls preserves per-key uniqueness. -/
theorem saveOfflineGrade_seq_key_unique :
    ∀ (calls : List (Int × Int × Int × Nat)) (db : DB),
      AtMostOnePerKey db.offlineGrades →
      AtMostOnePerKey ((calls.foldl applySaveOp db).offlineGrades)
  | [], _, h => h
  | c :: rest, db, h => by
    rw [List.foldl_cons]
    exact saveOfflineGrade_seq_key_unique rest _
      (saveOfflineGrade_key_unique db c.1 c.2.1 c.2.2.1 c.2.2.2 h)

/-- C9: after any sequence of `saveOfflineGrade` calls, the `offlineGrades`
table holds at most one row per `(submissionId, answerId)` key; a call for
an existing key rewrites that row in place (same id, new marks, new
`gradedAt`, `synced` reset to false) without changing the table length,
and a call for a fresh key appends exactly one row. -/
theorem c9_saveOfflineGrade_upsert (db : DB) :
    (AtMostOnePerKey db.offlineGrades →
      ∀ calls : List (Int × Int × Int × Nat),
        AtMostOnePerKey ((calls.foldl applySaveOp db).offlineGrades)) ∧
    (∀ s a m now ex, findGradeByKey db.offlineGrades s a = some ex →
      (saveOfflineGrade db s a m now).offlineGrades.length = db.offlineGrades.length ∧
      { ex with marks := m, gradedAt := now, synced := false } ∈
        (saveOfflineGrade db s a m now).offlineGrades) ∧
    (∀ s a m now, findGradeByKey db.offlineGrades s a = none →
      (saveOfflineGrade db s a m now).offlineGrades = db.offlineGrades ++
        [{ id := db.nextGradeId, submissionId := s, answerId := a,
           marks := m, gradedAt := now, synced := false }]) := by
  refine ⟨fun h calls => saveOfflineGrade_seq_key_unique calls db h, ?_, ?_⟩
  · intro s a m now ex hfind
    rw [saveOfflineGrade_offlineGrades, hfind]
    constructor
    · exact List.length_map _ _
    · refine List.mem_map.mpr ⟨ex, List.mem_of_find?_eq_some hfind, ?_⟩
      rw [if_pos rfl]
  · intro s a m now hfind
    rw [saveOfflineGrade_offlineGrades, hfind]

/-- C9 (witness): in the concrete database, re-grading key `(10, 9)` with
6 marks rewrites the single existing row in place. -/
theorem c9_saveOfflineGrade_upsert_witness :
    (saveOfflineGrade dbWithEdit 10 9 6 60).offlineGrades.length =
      dbWithEdit.offlineGrades.length ∧
    { grade10x9 with marks := 6, gradedAt := 60, synced := false } ∈
      (saveOfflineGrade dbWithEdit 10 9 6 60).offlineGrades ∧
    AtMostOnePerKey (([((10 : Int), (9 : Int), (6 : Int), (60 : Nat))].foldl
      applySaveOp dbWithEdit).offlineGrades) := by
  have h := c9_saveOfflineGrade_upsert dbWithEdit
  have hfind : findGradeByKey dbWithEdit.offlineGrades 10 9 = some grade10x9 := by decide
  have hk : AtMostOnePerKey dbWithEdit.offlineGrades := List.pairwise_singleton _ _
  obtain ⟨h1, h2⟩ := h.2.1 10 9 6 60 grade10x9 hfind
  exact ⟨h1, h2, h.1 hk [(10, 9, 6, 60)]⟩

/-- The pending-grade query is dead: as the `synced` index holds no
entries, `getPendingOfflineGrades` returns the empty list on every
database state. -/
theorem getPendingOfflineGrades_nil (db : DB) : getPendingOfflineGrades db = [] := by
  unfold getPendingOfflineGrades syncedIndexKey
  exact List.filter_eq_nil_iff.mpr (fun g _ => by simp)

/-- Consequently `pushOfflineGrades` always takes the
`pendingGrades.length === 0` early return: no POST is ever sent, no grade
is ever marked synced, and both the client DB and the server are returned
unchanged. -/
theorem pushOfflineGrades_noop (env : SyncEnv) (d : DB) (srv : Server) :
    pushOfflineGrades env d srv = (d, srv) := by
  unfold pushOfflineGrades
  dsimp only
  rw [getPendingOfflineGrades_nil]
  rfl

/-- C2 (code bug): the claim is false of the program.  `saveOfflineGrade`
stores `synced` as a JS boolean, booleans are not valid IndexedDB index
keys, so `where('synced').equals(0)` matches nothing:
`getPendingOfflineGrades` returns the empty list on every database state
— in particular on one that does hold an unsynced grade — and
`pushOfflineGrades` never attempts any push, leaving client and server
unchanged. -/
theorem c2_pending_query_dead (env : SyncEnv) (d : DB) (srv : Server) :
    getPendingOfflineGrades d = [] ∧
    pushOfflineGrades env d srv = (d, srv) ∧
    (grade10x9 ∈ dbWithEdit.offlineGrades ∧ grade10x9.synced = false ∧
      getPendingOfflineGrades dbWithEdit = []) :=
  ⟨getPendingOfflineGrades_nil d, pushOfflineGrades_noop env d srv,
   by decide, rfl, getPendingOfflineGrades_nil dbWithEdit⟩


-- ============ FRAME LEMMAS (tables untouched by each operation) ============

/-- `updateImageStatus` touches only image statuses/urls: every other table
is untouched, and the image rows keep their keys. -/
theorem updateImageStatus_frame (db : DB) (lid : Nat) (st : ImgStatus)
    (url : Option String) :
    (updateImageStatus db lid st url).offlineSubmissions = db.offlineSubmissions ∧
    (updateImageStatus db lid st url).offlineGrades = db.offlineGrades ∧
    (updateImageStatus db lid st url).syncedSubmissions = db.syncedSubmissions ∧
    (updateImageStatus db lid st url).teacherSession = db.teacherSession ∧
    (updateImageStatus db lid st url).pendingImages.map
        (fun im => (im.localId, im.submissionLocalId)) =
      db.pendingImages.map (fun im => (im.localId, im.submissionLocalId)) := by
  refine ⟨rfl, rfl, rfl, rfl, ?_⟩
  simp only [updateImageStatus, List.map_map]
  apply List.map_congr_left
  intro im _
  by_cases h : im.localId = lid <;> simp [h]

/-- The upload loop touches only image statuses/urls. -/
theorem uploadLoop_frame (env : SyncEnv) :
    ∀ (images : List PendingImage) (db : DB) (answers : Answers),
      (uploadLoop env db answers images).1.offlineSubmissions = db.offlineSubmissions ∧
      (uploadLoop env db answers images).1.offlineGrades = db.offlineGrades ∧
      (uploadLoop env db answers images).1.syncedSubmissions = db.syncedSubmissions ∧
      (uploadLoop env db answers images).1.teacherSession = db.teacherSession ∧
      (uploadLoop env db answers images).1.pendingImages.map
          (fun im => (im.localId, im.submissionLocalId)) =
        db.pendingImages.map (fun im => (im.localId, im.submissionLocalId))
  | [], db, answers => ⟨rfl, rfl, rfl, rfl, rfl⟩
  | image :: rest, db, answers => by
    rw [uploadLoop]
    by_cases hskip : image.status = ImgStatus.uploaded ∧ jsTruthyStr image.cloudinaryUrl = true
    · rw [if_pos hskip]
      exact uploadLoop_frame env rest db _
    · rw [if_neg hskip]
      cases hup : env.uploadResult image.localId with
      | netErr msg =>
        have h1 := updateImageStatus_frame db image.localId ImgStatus.uploading none
        have h2 := updateImageStatus_frame (updateImageStatus db image.localId
          ImgStatus.uploading none) image.localId ImgStatus.failed none
        exact ⟨by rw [h2.1, h1.1], by rw [h2.2.1, h1.2.1],
          by rw [h2.2.2.1, h1.2.2.1], by rw [h2.2.2.2.1, h1.2.2.2.1],
          by rw [h2.2.2.2.2, h1.2.2.2.2]⟩
      | httpErr status =>
        have h1 := updateImageStatus_frame db image.localId ImgStatus.uploading none
        have h2 := updateImageStatus_frame (updateImageStatus db image.localId
          ImgStatus.uploading none) image.localId ImgStatus.failed none
        exact ⟨by rw [h2.1, h1.1], by rw [h2.2.1, h1.2.1],
          by rw [h2.2.2.1, h1.2.2.1], by rw [h2.2.2.2.1, h1.2.2.2.1],
          by rw [h2.2.2.2.2, h1.2.2.2.2]⟩
      | success url =>
        have h1 := updateImageStatus_frame db image.localId ImgStatus.uploading none
        have h2 := updateImageStatus_frame (updateImageStatus db image.localId
          ImgStatus.uploading none) image.localId ImgStatus.uploaded (some url)
        have ih := uploadLoop_frame env rest (updateImageStatus (updateImageStatus db
          image.localId ImgStatus.uploading none) image.localId ImgStatus.uploaded
          (some url)) (setAnswerImageUrl answers image.questionId url)
        exact ⟨by rw [ih.1, h2.1, h1.1], by rw [ih.2.1, h2.2.1, h1.2.1],
          by rw [ih.2.2.1, h2.2.2.1, h1.2.2.1],
          by rw [ih.2.2.2.1, h2.2.2.2.1, h1.2.2.2.1],
          by rw [ih.2.2.2.2, h2.2.2.2.2, h1.2.2.2.2]⟩

/-- `updateSubmissionStatus` keeps every other table, and the submission
rows keep their local ids. -/
theorem updateSubmissionStatus_frame (db : DB) (lid : Nat) (st : SubStatus)
    (sid : Option Nat) (err : Option String) (now : Nat) :
    (updateSubmissionStatus db lid st sid err now).pendingImages = db.pendingImages ∧
    (updateSubmissionStatus db lid st sid err now).offlineGrades = db.offlineGrades ∧
    (updateSubmissionStatus db lid st sid err now).syncedSubmissions = db.syncedSubmissions ∧
    (updateSubmissionStatus db lid st sid err now).teacherSession = db.teacherSession ∧
    (updateSubmissionStatus db lid st sid err now).offlineSubmissions.map
        (fun s => s.localId) =
      db.offlineSubmissions.map (fun s => s.localId) := by
  refine ⟨rfl, rfl, rfl, rfl, ?_⟩
  simp only [updateSubmissionStatus, List.map_map]
  apply List.map_congr_left
  intro s _
  by_cases h : s.localId = lid <;> simp [h]


-- ============ C3: SYNCED ⟺ SERVER ID ============

/-- The invariant only reads the `offlineSubmissions` table. -/
theorem SyncedIffServerId_of_eq (d1 d2 : DB)
    (h : d1.offlineSubmissions = d2.offlineSubmissions) (hd : SyncedIffServerId d2) :
    SyncedIffServerId d1 := by
  intro s hs
  exact hd s (h ▸ hs)

/-- A well-formed `updateSubmissionStatus` call preserves the invariant. -/
theorem updateSubmissionStatus_inv (db : DB) (lid : Nat) (st : SubStatus)
    (sid : Option Nat) (err : Option String) (now : Nat)
    (hok : st = SubStatus.synced ↔ sid.isSome = true)
    (h : SyncedIffServerId db) :
    SyncedIffServerId (updateSubmissionStatus db lid st sid err now) := by
  intro s hs
  simp only [updateSubmissionStatus] at hs
  obtain ⟨s0, hs0, heq⟩ := List.mem_map.mp hs
  by_cases hid : s0.localId = lid
  · rw [if_pos hid] at heq
    rw [← heq]
    exact hok
  · rw [if_neg hid] at heq
    rw [← heq]
    exact h s0 hs0

/-- `syncSubmission` preserves the invariant: it transitions through
`'syncing'` (null id), to `'synced'` with the returned server id, or to
`'failed'` with a null id. -/
theorem syncSubmission_inv (env : SyncEnv) (db : DB) (sub : OfflineSubmission)
    (h : SyncedIffServerId db) :
    SyncedIffServerId (syncSubmission env db sub) := by
  have h1 : SyncedIffServerId (updateSubmissionStatus db sub.localId
      SubStatus.syncing none none env.now) :=
    updateSubmissionStatus_inv db sub.localId SubStatus.syncing none none env.now
      (by simp) h
  have hframe := (uploadLoop_frame env
    (getPendingImagesForSubmission (updateSubmissionStatus db sub.localId
      SubStatus.syncing none none env.now) sub.localId)
    (updateSubmissionStatus db sub.localId SubStatus.syncing none none env.now)
    sub.answers).1
  have h2 : SyncedIffServerId (uploadPendingImages env
      (updateSubmissionStatus db sub.localId SubStatus.syncing none none env.now)
      sub).1 :=
    SyncedIffServerId_of_eq _ _ hframe h1
  simp only [syncSubmission]
  split
  · exact updateSubmissionStatus_inv _ _ _ _ _ _ (by simp) h2
  · split
    · exact updateSubmissionStatus_inv _ _ _ _ _ _ (by simp) h2
    · exact updateSubmissionStatus_inv _ _ _ _ _ _ (by simp) h2
    · split
      · exact updateSubmissionStatus_inv _ _ _ _ _ _ (by simp) h2
      · exact SyncedIffServerId_of_eq _ _ rfl
          (updateSubmissionStatus_inv _ _ _ _ _ _ (by simp) h2)

/-- Any sequence of well-formed operations preserves the invariant. -/
theorem submissionOps_inv :
    ∀ (ops : List SubmissionOp) (db : DB), SyncedIffServerId db →
      (∀ op ∈ ops, OpWellFormed op) →
      SyncedIffServerId (ops.foldl applySubmissionOp db)
  | [], _, h0, _ => h0
  | op :: rest, db, h0, hops => by
    rw [List.foldl_cons]
    refine submissionOps_inv rest _ ?_ (fun o ho => hops o (by simp [ho]))
    cases op with
    | upd lid st sid err now =>
      have hwf : OpWellFormed (SubmissionOp.upd lid st sid err now) :=
        hops (SubmissionOp.upd lid st sid err now) (List.mem_cons_self _ _)
      exact updateSubmissionStatus_inv db lid st sid err now hwf h0
    | syncOne env sub => exact syncSubmission_inv env db sub h0

/-- C3: starting from a database satisfying it, the invariant
`status = 'synced' ⟺ serverSubmissionId ≠ null` holds after any sequence
of `updateSubmissionStatus` / `syncSubmission` operations as the code
issues them; moreover a non-`'synced'` update writes a null server id and
the `'synced'` update writes exactly the id it was given. -/
theorem c3_synced_iff_server_id (db : DB) (ops : List SubmissionOp)
    (h0 : SyncedIffServerId db) (hops : ∀ op ∈ ops, OpWellFormed op) :
    SyncedIffServerId (ops.foldl applySubmissionOp db) ∧
    (∀ lid st err now, st ≠ SubStatus.synced →
      ∀ s ∈ (updateSubmissionStatus db lid st none err now).offlineSubmissions,
        s.localId = lid → s.serverSubmissionId = none) ∧
    (∀ lid sid err now,
      ∀ s ∈ (updateSubmissionStatus db lid SubStatus.synced (some sid) err
          now).offlineSubmissions,
        s.localId = lid → s.serverSubmissionId = some sid) := by
  refine ⟨submissionOps_inv ops db h0 hops, ?_, ?_⟩
  · intro lid st err now _ s hs hsid
    simp only [updateSubmissionStatus] at hs
    obtain ⟨s0, _, heq⟩ := List.mem_map.mp hs
    by_cases hid : s0.localId = lid
    · rw [if_pos hid] at heq
      rw [← heq]
    · rw [if_neg hid] at heq
      rw [← heq] at hsid
      exact absurd hsid hid
  · intro lid sid err now s hs hsid
    simp only [updateSubmissionStatus] at hs
    obtain ⟨s0, _, heq⟩ := List.mem_map.mp hs
    by_cases hid : s0.localId = lid
    · rw [if_pos hid] at heq
      rw [← heq]
    · rw [if_neg hid] at heq
      rw [← heq] at hsid
      exact absurd hsid hid


/-- C3 (witness): the invariant after a concrete sequence — an explicit
`'syncing'` transition followed by a successful `syncSubmission` — and the
two transition facts at concrete inputs. -/
theorem c3_synced_iff_server_id_witness :
    SyncedIffServerId ([SubmissionOp.upd 1 SubStatus.syncing none none 11,
        SubmissionOp.syncOne envAllOk pendingSub1].foldl applySubmissionOp dbWithSub) ∧
    (∀ s ∈ (updateSubmissionStatus dbWithSub 1 SubStatus.failed none (some "e")
        12).offlineSubmissions, s.localId = 1 → s.serverSubmissionId = none) ∧
    (∀ s ∈ (updateSubmissionStatus dbWithSub 1 SubStatus.synced (some 501) none
        13).offlineSubmissions, s.localId = 1 → s.serverSubmissionId = some 501) := by
  have h := c3_synced_iff_server_id dbWithSub
    [SubmissionOp.upd 1 SubStatus.syncing none none 11,
     SubmissionOp.syncOne envAllOk pendingSub1]
    (by intro s hs; fin_cases hs; simp [pendingSub1])
    (by
      intro op hop
      rcases List.mem_cons.mp hop with h1 | h1
      · subst h1; simp [OpWellFormed]
      · rcases List.mem_cons.mp h1 with h2 | h2
        · subst h2; trivial
        · simp at h2)
  exact ⟨h.1, fun s hs => h.2.1 1 SubStatus.failed (some "e") 12 (by simp) s hs,
    fun s hs => h.2.2 1 (501 : Nat) none 13 s hs⟩


-- ============ PER-RECORD FAILURE (C7) ============

/-- The upload loop's success/error result does not depend on the database
it threads through, only on the image list, the answers and the
environment. -/
theorem uploadLoop_snd_congr (env : SyncEnv) :
    ∀ (images : List PendingImage) (d1 d2 : DB) (answers : Answers),
      (uploadLoop env d1 answers images).2 = (uploadLoop env d2 answers images).2
  | [], _, _, _ => rfl
  | image :: rest, d1, d2, answers => by
    rw [uploadLoop, uploadLoop]
    by_cases hskip : image.status = ImgStatus.uploaded ∧ jsTruthyStr image.cloudinaryUrl = true
    · rw [if_pos hskip, if_pos hskip]
      exact uploadLoop_snd_congr env rest _ _ _
    · rw [if_neg hskip, if_neg hskip]
      cases env.uploadResult image.localId with
      | netErr msg => rfl
      | httpErr status => rfl
      | success url => exact uploadLoop_snd_congr env rest _ _ _

/-- When `submissionSyncError` reports an error, `syncSubmission` is
exactly the `'failed'` transition with that message on top of whatever the
upload pipeline wrote. -/
theorem syncSubmission_failed_char (env : SyncEnv) (db : DB)
    (sub : OfflineSubmission) (e : String)
    (h : submissionSyncError env db sub = some e) :
    syncSubmission env db sub =
      updateSubmissionStatus
        (uploadPendingImages env (updateSubmissionStatus db sub.localId
          SubStatus.syncing none none env.now) sub).1
        sub.localId SubStatus.failed none (some e) env.now := by
  have hsnd := uploadLoop_snd_congr env (getPendingImagesForSubmission db sub.localId)
    (updateSubmissionStatus db sub.localId SubStatus.syncing none none env.now) db
    sub.answers
  have hgr := (uploadLoop_frame env (getPendingImagesForSubmission db sub.localId)
    (updateSubmissionStatus db sub.localId SubStatus.syncing none none env.now)
    sub.answers).2.1
  unfold submissionSyncError at h
  unfold syncSubmission uploadPendingImages
  dsimp only at h ⊢
  rw [show getPendingImagesForSubmission (updateSubmissionStatus db sub.localId
      SubStatus.syncing none none env.now) sub.localId =
    getPendingImagesForSubmission db sub.localId from rfl]
  rw [hsnd, hgr]
  rw [show (updateSubmissionStatus db sub.localId SubStatus.syncing none none
    env.now).offlineGrades = db.offlineGrades from rfl]
  cases hm : (uploadLoop env db sub.answers
      (getPendingImagesForSubmission db sub.localId)).2 with
  | error e0 =>
    rw [hm] at h
    dsimp only at h ⊢
    simp only [Option.some.injEq] at h
    rw [h]
  | ok updatedAnswers =>
    rw [hm] at h
    dsimp only at h ⊢
    cases hs : env.submitResult sub.localId
        ((db.offlineGrades.filter (fun g => g.submissionId = -(sub.localId : Int))).foldl
          (fun a g => attachGradeToAnswers a (-g.answerId) g.marks) updatedAnswers) with
    | netErr msg =>
      rw [hs] at h
      dsimp only at h ⊢
      simp only [Option.some.injEq] at h
      rw [h]
    | httpErr body =>
      rw [hs] at h
      dsimp only at h ⊢
      simp only [Option.some.injEq] at h
      rw [h]
    | success serverId =>
      rw [hs] at h
      dsimp only at h
      exact Option.noConfusion h

/-- C7: when a record's sync fails for any reason, the record is marked
`'failed'` with the error message, its server id and `syncedAt` stay null,
every other field (answers, correlation id, form id, student fields,
`createdAt`, ...) is unchanged — the new row is the old row with only the
four lifecycle fields rewritten — and the `offlineGrades` table is
untouched (no partial sync result is applied). -/
theorem c7_syncSubmission_failure_intact (env : SyncEnv) (db : DB)
    (sub : OfflineSubmission) (e : String)
    (h : submissionSyncError env db sub = some e) :
    ((syncSubmission env db sub).offlineGrades = db.offlineGrades) ∧
    (∀ r ∈ db.offlineSubmissions, r.localId = sub.localId →
      { r with
          status := SubStatus.failed,
          syncedAt := none,
          serverSubmissionId := none,
          errorMessage := some e } ∈
        (syncSubmission env db sub).offlineSubmissions) := by
  rw [syncSubmission_failed_char env db sub e h]
  have hgr := (uploadLoop_frame env (getPendingImagesForSubmission db sub.localId)
    (updateSubmissionStatus db sub.localId SubStatus.syncing none none env.now)
    sub.answers).2.1
  have hsubs := (uploadLoop_frame env (getPendingImagesForSubmission db sub.localId)
    (updateSubmissionStatus db sub.localId SubStatus.syncing none none env.now)
    sub.answers).1
  constructor
  · rw [show (updateSubmissionStatus (uploadPendingImages env
        (updateSubmissionStatus db sub.localId SubStatus.syncing none none env.now)
        sub).1 sub.localId SubStatus.failed none (some e) env.now).offlineGrades =
      (uploadPendingImages env (updateSubmissionStatus db sub.localId
        SubStatus.syncing none none env.now) sub).1.offlineGrades from rfl]
    exact hgr
  · intro r hr hrid
    rw [show (updateSubmissionStatus (uploadPendingImages env
        (updateSubmissionStatus db sub.localId SubStatus.syncing none none env.now)
        sub).1 sub.localId SubStatus.failed none (some e) env.now).offlineSubmissions =
      (uploadPendingImages env (updateSubmissionStatus db sub.localId
        SubStatus.syncing none none env.now)
        sub).1.offlineSubmissions.map (fun s =>
          if s.localId = sub.localId then
            { s with
                status := SubStatus.failed,
                syncedAt := if SubStatus.failed = SubStatus.synced then some env.now else none,
                serverSubmissionId := none,
                errorMessage := some e }
          else s) from rfl]
    rw [show (uploadPendingImages env (updateSubmissionStatus db sub.localId
        SubStatus.syncing none none env.now) sub).1.offlineSubmissions =
      (uploadLoop env (updateSubmissionStatus db sub.localId SubStatus.syncing none
        none env.now) sub.answers
        (getPendingImagesForSubmission db sub.localId)).1.offlineSubmissions from rfl]
    rw [hsubs]
    rw [show (updateSubmissionStatus db sub.localId SubStatus.syncing none none
        env.now).offlineSubmissions = db.offlineSubmissions.map (fun s =>
          if s.localId = sub.localId then
            { s with
                status := SubStatus.syncing,
                syncedAt := if SubStatus.syncing = SubStatus.synced then some env.now else none,
                serverSubmissionId := none,
                errorMessage := none }
          else s) from rfl]
    rw [List.map_map]
    refine List.mem_map.mpr ⟨r, hr, ?_⟩
    simp [Function.comp, hrid]


/-- C7 (witness): with the network down, the concrete pending submission is
marked failed with the error message and every other field intact, and the
grades table is untouched. -/
theorem c7_syncSubmission_failure_intact_witness :
    ((syncSubmission envPushFails dbWithSub pendingSub1).offlineGrades =
      dbWithSub.offlineGrades) ∧
    { pendingSub1 with
        status := SubStatus.failed,
        syncedAt := none,
        serverSubmissionId := none,
        errorMessage := some "offline" } ∈
      (syncSubmission envPushFails dbWithSub pendingSub1).offlineSubmissions := by
  have h := c7_syncSubmission_failure_intact envPushFails dbWithSub pendingSub1
    "offline" (by decide)
  exact ⟨h.1, h.2 pendingSub1 (by decide) rfl⟩

-- ============ ASSET PIPELINE FAILURE (C4) ============

/-- The upload loop splits over list append. -/
theorem uploadLoop_append (env : SyncEnv) :
    ∀ (l1 l2 : List PendingImage) (db : DB) (answers : Answers),
      uploadLoop env db answers (l1 ++ l2) =
        (match (uploadLoop env db answers l1).2 with
         | Except.ok a1 => uploadLoop env (uploadLoop env db answers l1).1 a1 l2
         | Except.error _ => uploadLoop env db answers l1)
  | [], l2, db, answers => rfl
  | image :: rest, l2, db, answers => by
    rw [List.cons_append, uploadLoop, uploadLoop]
    by_cases hskip : image.status = ImgStatus.uploaded ∧
        jsTruthyStr image.cloudinaryUrl = true
    · rw [if_pos hskip, if_pos hskip]
      exact uploadLoop_append env rest l2 db _
    · rw [if_neg hskip, if_neg hskip]
      cases env.uploadResult image.localId with
      | netErr msg => rfl
      | httpErr status => rfl
      | success url => exact uploadLoop_append env rest l2 _ _

/-- C4: if uploading image `img` of a record fails (after the images before
it succeeded or were skipped), then — for some error message `e` — the
whole pipeline stops at `img`: `img` is transitioned to `'failed'`, the
images after it are not attempted (their rows are untouched), the loop
returns `Except.error e`, and the owning submission ends the cycle as
`'failed'`, never `'synced'`. -/
theorem c4_asset_failure_aborts (env : SyncEnv) (db : DB) (sub : OfflineSubmission)
    (pre post : List PendingImage) (img : PendingImage) (db1 : DB) (a1 : Answers)
    (himgs : getPendingImagesForSubmission db sub.localId = pre ++ img :: post)
    (hpre : uploadLoop env db sub.answers pre = (db1, Except.ok a1))
    (hskip : ¬ (img.status = ImgStatus.uploaded ∧ jsTruthyStr img.cloudinaryUrl = true))
    (hnosucc : ∀ url, env.uploadResult img.localId ≠ UploadOutcome.success url) :
    ∃ e,
      uploadLoop env db sub.answers (pre ++ img :: post) =
        (updateImageStatus (updateImageStatus db1 img.localId ImgStatus.uploading none)
          img.localId ImgStatus.failed none, Except.error e) ∧
      (∀ r ∈ (updateImageStatus (updateImageStatus db1 img.localId ImgStatus.uploading
          none) img.localId ImgStatus.failed none).pendingImages,
        r.localId = img.localId → r.status = ImgStatus.failed) ∧
      (∀ r ∈ db1.pendingImages, r.localId ≠ img.localId →
        r ∈ (updateImageStatus (updateImageStatus db1 img.localId ImgStatus.uploading
          none) img.localId ImgStatus.failed none).pendingImages) ∧
      (∀ r ∈ (syncSubmission env db sub).offlineSubmissions,
        r.localId = sub.localId → r.status = SubStatus.failed) := by
  have hloop : ∃ e, uploadLoop env db sub.answers (pre ++ img :: post) =
      (updateImageStatus (updateImageStatus db1 img.localId ImgStatus.uploading none)
        img.localId ImgStatus.failed none, Except.error e) := by
    rw [uploadLoop_append env pre (img :: post) db sub.answers, hpre]
    dsimp only
    rw [uploadLoop, if_neg hskip]
    cases hup : env.uploadResult img.localId with
    | netErr msg => exact ⟨msg, rfl⟩
    | httpErr status => exact ⟨"Upload failed: " ++ toString status, rfl⟩
    | success url => exact absurd hup (hnosucc url)
  obtain ⟨e, hloope⟩ := hloop
  refine ⟨e, hloope, ?_, ?_, ?_⟩
  · intro r hr hrid
    simp only [updateImageStatus] at hr
    rw [List.map_map] at hr
    obtain ⟨r0, _, heq⟩ := List.mem_map.mp hr
    by_cases h0 : r0.localId = img.localId
    · simp only [Function.comp, if_pos h0] at heq
      rw [← heq]
    · simp only [Function.comp, if_neg h0] at heq
      rw [heq] at h0
      exact absurd hrid h0
  · intro r hr hrid
    simp only [updateImageStatus]
    rw [List.map_map]
    refine List.mem_map.mpr ⟨r, hr, ?_⟩
    simp only [Function.comp, if_neg hrid]
  · have herr : submissionSyncError env db sub = some e := by
      unfold submissionSyncError
      rw [himgs, hloope]
    rw [syncSubmission_failed_char env db sub e herr]
    intro r hr hrid
    simp only [updateSubmissionStatus] at hr
    obtain ⟨r0, _, heq⟩ := List.mem_map.mp hr
    by_cases h0 : r0.localId = sub.localId
    · rw [if_pos h0] at heq
      rw [← heq]
    · rw [if_neg h0] at heq
      rw [← heq] at hrid
      exact absurd hrid h0


/-- C4 (witness): in the concrete two-image record, the first upload fails,
the pipeline stops there, and the record ends the cycle `'failed'`. -/
theorem c4_asset_failure_aborts_witness :
    ∃ e,
      uploadLoop envPushFails dbWithImages pendingSub1.answers
          (getPendingImagesForSubmission dbWithImages 1) =
        (updateImageStatus (updateImageStatus dbWithImages 1 ImgStatus.uploading none)
          1 ImgStatus.failed none, Except.error e) ∧
      (∀ r ∈ dbWithImages.pendingImages, r.localId ≠ 1 →
        r ∈ (updateImageStatus (updateImageStatus dbWithImages 1 ImgStatus.uploading
          none) 1 ImgStatus.failed none).pendingImages) ∧
      (∀ r ∈ (syncSubmission envPushFails dbWithImages pendingSub1).offlineSubmissions,
        r.localId = 1 → r.status = SubStatus.failed) := by
  have h := c4_asset_failure_aborts envPushFails dbWithImages pendingSub1 [] [img2]
    img1 dbWithImages pendingSub1.answers (by decide) rfl (by decide)
    (fun url hh => UploadOutcome.noConfusion hh)
  obtain ⟨e, h1, _, h3, h4⟩ := h
  refine ⟨e, ?_, h3, h4⟩
  rw [show getPendingImagesForSubmission dbWithImages 1 = [] ++ img1 :: [img2] from
    by decide]
  exact h1

-- ============ MUTUAL EXCLUSION OF CYCLES (C5) ============

/-- C5: while `isSyncing` is true every entry point — `performSync` itself,
`triggerSync`, the `online` handler, the `focus` handler — performs no sync
work and queues nothing (state, local DB and server are unchanged and the
cycle body did not run); and whenever a cycle does start, the guard is
released at the end even if the cycle body throws. -/
theorem c5_single_cycle_guard (env : SyncEnv) (st : SyncState) (db : DB) (srv : Server) :
    (st.isSyncing = true →
      performSync env st db srv = ⟨st, db, srv, false⟩ ∧
      triggerSync env st db srv = ⟨st, db, srv, false⟩ ∧
      handleOnline env st db srv = ⟨st, db, srv, false⟩ ∧
      handleFocus env st db srv = ⟨st, db, srv, false⟩) ∧
    (st.isSyncing = false →
      (performSync env st db srv).ran = true ∧
      (performSync env st db srv).state.isSyncing = false) := by
  constructor
  · intro h
    refine ⟨?_, ?_, ?_, ?_⟩ <;>
      simp [performSync, triggerSync, handleOnline, handleFocus, h]
  · intro h
    cases henv : env.throwEarly <;> simp [performSync, h, henv]

/-- C5 (witness): with a cycle in progress, a concrete trigger is a no-op;
with the guard clear, a cycle that throws immediately still releases it. -/
theorem c5_single_cycle_guard_witness :
    triggerSync envAllOk { isSyncing := true } dbWithSub serverWithRow10 =
      ⟨{ isSyncing := true }, dbWithSub, serverWithRow10, false⟩ ∧
    (performSync { envAllOk with throwEarly := some "storage error" }
      { isSyncing := false } dbWithSub serverWithRow10).state.isSyncing = false := by
  constructor
  · exact ((c5_single_cycle_guard envAllOk { isSyncing := true } dbWithSub
      serverWithRow10).1 rfl).2.1
  · exact ((c5_single_cycle_guard { envAllOk with throwEarly := some "storage error" }
      { isSyncing := false } dbWithSub serverWithRow10).2 rfl).2


-- ============ RECORD ISOLATION (C8) ============

/-- Mapping a function that fixes every element satisfying `p` (and never
changes whether `p` holds) commutes away under `filter p`. -/
theorem filter_map_fixed {α : Type} (p : α → Bool) (f : α → α) :
    ∀ (l : List α), (∀ x ∈ l, p (f x) = p x) → (∀ x ∈ l, p x = true → f x = x) →
      (l.map f).filter p = l.filter p
  | [], _, _ => rfl
  | x :: rest, hp, hfix => by
    rw [List.map_cons]
    cases hx : p x with
    | true =>
      rw [List.filter_cons_of_pos (by rw [hp x (by simp), hx]),
        List.filter_cons_of_pos hx, hfix x (by simp) hx]
      rw [filter_map_fixed p f rest (fun y hy => hp y (by simp [hy]))
        (fun y hy => hfix y (by simp [hy]))]
    | false =>
      rw [List.filter_cons_of_neg (by rw [hp x (by simp), hx]; simp),
        List.filter_cons_of_neg (by rw [hx]; simp)]
      exact filter_map_fixed p f rest (fun y hy => hp y (by simp [hy]))
        (fun y hy => hfix y (by simp [hy]))

/-- The upload loop leaves untouched every image row whose owner is not
among the ids it was asked to upload. -/
theorem uploadLoop_imagesFor_other (env : SyncEnv) :
    ∀ (images : List PendingImage) (d : DB) (answers : Answers) (lid : Nat),
      (∀ im ∈ images, ∀ r ∈ d.pendingImages,
        r.submissionLocalId = lid → r.localId ≠ im.localId) →
      getPendingImagesForSubmission (uploadLoop env d answers images).1 lid =
        getPendingImagesForSubmission d lid
  | [], _, _, _, _ => rfl
  | image :: rest, d, answers, lid, hids => by
    rw [uploadLoop]
    by_cases hskip : image.status = ImgStatus.uploaded ∧
        jsTruthyStr image.cloudinaryUrl = true
    · rw [if_pos hskip]
      exact uploadLoop_imagesFor_other env rest d _ lid
        (fun im him => hids im (by simp [him]))
    · rw [if_neg hskip]
      have hupd : ∀ (st : ImgStatus) (url : Option String) (d0 : DB),
          (∀ r ∈ d0.pendingImages, r.submissionLocalId = lid →
            r.localId ≠ image.localId) →
          getPendingImagesForSubmission (updateImageStatus d0 image.localId st url) lid =
            getPendingImagesForSubmission d0 lid := by
        intro st url d0 hd0
        unfold getPendingImagesForSubmission updateImageStatus
        apply filter_map_fixed
        · intro x _
          by_cases hx : x.localId = image.localId <;> simp [hx]
        · intro x hx hpx
          rw [if_neg (hd0 x hx (by simpa using hpx))]
      have hd1 : ∀ r ∈ (updateImageStatus d image.localId ImgStatus.uploading
          none).pendingImages, r.submissionLocalId = lid → r.localId ≠ image.localId := by
        intro r hr
        simp only [updateImageStatus] at hr
        obtain ⟨r0, hr0, heq⟩ := List.mem_map.mp hr
        have hsame : r.submissionLocalId = r0.submissionLocalId ∧ r.localId = r0.localId := by
          by_cases h0 : r0.localId = image.localId <;> simp [← heq, h0]
        intro hsub
        rw [hsame.2]
        exact hids image (by simp) r0 hr0 (hsame.1 ▸ hsub)
      cases env.uploadResult image.localId with
      | netErr msg =>
        rw [hupd ImgStatus.failed none _ hd1, hupd ImgStatus.uploading none d
          (fun r hr => hids image (by simp) r hr)]
      | httpErr status =>
        rw [hupd ImgStatus.failed none _ hd1, hupd ImgStatus.uploading none d
          (fun r hr => hids image (by simp) r hr)]
      | success url =>
        have hd2 : ∀ r ∈ (updateImageStatus (updateImageStatus d image.localId
            ImgStatus.uploading none) image.localId ImgStatus.uploaded
            (some url)).pendingImages,
            r.submissionLocalId = lid → r.localId ≠ image.localId := by
          intro r hr
          simp only [updateImageStatus, List.map_map] at hr
          obtain ⟨r0, hr0, heq⟩ := List.mem_map.mp hr
          have hsame : r.submissionLocalId = r0.submissionLocalId ∧
              r.localId = r0.localId := by
            by_cases h0 : r0.localId = image.localId <;>
              simp [← heq, Function.comp, h0]
          intro hsub
          rw [hsame.2]
          exact hids image (by simp) r0 hr0 (hsame.1 ▸ hsub)
        have hrec : ∀ im ∈ rest, ∀ r ∈ (updateImageStatus (updateImageStatus d
            image.localId ImgStatus.uploading none) image.localId ImgStatus.uploaded
            (some url)).pendingImages, r.submissionLocalId = lid →
            r.localId ≠ im.localId := by
          intro im him r hr
          simp only [updateImageStatus, List.map_map] at hr
          obtain ⟨r0, hr0, heq⟩ := List.mem_map.mp hr
          have hsame : r.submissionLocalId = r0.submissionLocalId ∧
              r.localId = r0.localId := by
            by_cases h0 : r0.localId = image.localId <;>
              simp [← heq, Function.comp, h0]
          intro hsub
          rw [hsame.2]
          exact hids im (by simp [him]) r0 hr0 (hsame.1 ▸ hsub)
        rw [uploadLoop_imagesFor_other env rest _ _ lid hrec,
          hupd ImgStatus.uploaded (some url) _ hd1,
          hupd ImgStatus.uploading none d (fun r hr => hids image (by simp) r hr)]


/-- `updateSubmissionStatus` rebuilds only the `offlineSubmissions` table. -/
theorem updateSubmissionStatus_offlineGrades (d : DB) (lid : Nat) (st : SubStatus)
    (sid : Option Nat) (err : Option String) (now : Nat) :
    (updateSubmissionStatus d lid st sid err now).offlineGrades = d.offlineGrades := rfl

/-- Syncing a different record leaves the images of submission `lid`
untouched, as long as image primary keys are unique. -/
theorem syncSubmission_imagesFor_other (env : SyncEnv) (d : DB)
    (t : OfflineSubmission) (lid : Nat) (hne : lid ≠ t.localId)
    (hnodup : (d.pendingImages.map (fun im => im.localId)).Nodup) :
    getPendingImagesForSubmission (syncSubmission env d t) lid =
      getPendingImagesForSubmission d lid := by
  have hids : ∀ im ∈ getPendingImagesForSubmission
      (updateSubmissionStatus d t.localId SubStatus.syncing none none env.now)
      t.localId,
      ∀ r ∈ (updateSubmissionStatus d t.localId SubStatus.syncing none none
        env.now).pendingImages,
      r.submissionLocalId = lid → r.localId ≠ im.localId := by
    intro im him r hr hsub
    rw [show getPendingImagesForSubmission (updateSubmissionStatus d t.localId
      SubStatus.syncing none none env.now) t.localId =
      getPendingImagesForSubmission d t.localId from rfl] at him
    rw [show (updateSubmissionStatus d t.localId SubStatus.syncing none none
      env.now).pendingImages = d.pendingImages from rfl] at hr
    obtain ⟨him_mem, him_own⟩ := List.mem_filter.mp him
    intro hcontra
    have hrim : r ≠ im := by
      intro hh
      rw [hh] at hsub
      rw [hsub] at him_own
      simp at him_own
      exact hne him_own
    exact hrim (List.inj_on_of_nodup_map hnodup hr him_mem hcontra)
  have hkey : getPendingImagesForSubmission (uploadPendingImages env
      (updateSubmissionStatus d t.localId SubStatus.syncing none none env.now)
      t).1 lid = getPendingImagesForSubmission d lid := by
    rw [show uploadPendingImages env (updateSubmissionStatus d t.localId
      SubStatus.syncing none none env.now) t = uploadLoop env
      (updateSubmissionStatus d t.localId SubStatus.syncing none none env.now)
      t.answers (getPendingImagesForSubmission (updateSubmissionStatus d t.localId
        SubStatus.syncing none none env.now) t.localId) from rfl]
    rw [uploadLoop_imagesFor_other env _ _ _ lid hids]
    rfl
  unfold syncSubmission
  dsimp only
  split
  · exact hkey
  · split
    · exact hkey
    · exact hkey
    · split
      · exact hkey
      · exact hkey

/-- Syncing any record preserves the multiset of image primary keys. -/
theorem syncSubmission_imageIds (env : SyncEnv) (d : DB) (t : OfflineSubmission) :
    (syncSubmission env d t).pendingImages.map (fun im => im.localId) =
      d.pendingImages.map (fun im => im.localId) := by
  have hpair : ∀ (d0 : DB),
      d0.pendingImages.map (fun im => (im.localId, im.submissionLocalId)) =
        d.pendingImages.map (fun im => (im.localId, im.submissionLocalId)) →
      d0.pendingImages.map (fun im => im.localId) =
        d.pendingImages.map (fun im => im.localId) := by
    intro d0 h
    have := congrArg (List.map Prod.fst) h
    simpa [List.map_map, Function.comp] using this
  have hframe := uploadLoop_frame env (getPendingImagesForSubmission
    (updateSubmissionStatus d t.localId SubStatus.syncing none none env.now)
    t.localId) (updateSubmissionStatus d t.localId SubStatus.syncing none none
    env.now) t.answers
  unfold syncSubmission
  dsimp only
  split
  · exact hpair _ hframe.2.2.2.2
  · split
    · exact hpair _ hframe.2.2.2.2
    · exact hpair _ hframe.2.2.2.2
    · split
      · exact hpair _ hframe.2.2.2.2
      · exact hpair _ hframe.2.2.2.2

/-- Syncing a different record leaves the offline grades of key `-lid`
untouched. -/
theorem syncSubmission_gradesFor_other (env : SyncEnv) (d : DB)
    (t : OfflineSubmission) (lid : Nat) (hne : lid ≠ t.localId) :
    (syncSubmission env d t).offlineGrades.filter
        (fun g => g.submissionId = -(lid : Int)) =
      d.offlineGrades.filter (fun g => g.submissionId = -(lid : Int)) := by
  have hbase := (uploadLoop_frame env (getPendingImagesForSubmission
    (updateSubmissionStatus d t.localId SubStatus.syncing none none env.now)
    t.localId) (updateSubmissionStatus d t.localId SubStatus.syncing none none
    env.now) t.answers).2.1
  have hbase' : (uploadPendingImages env (updateSubmissionStatus d t.localId
      SubStatus.syncing none none env.now) t).1.offlineGrades = d.offlineGrades :=
    hbase
  unfold syncSubmission
  dsimp only
  split
  · rw [updateSubmissionStatus_offlineGrades, hbase']
  · split
    · rw [updateSubmissionStatus_offlineGrades, hbase']
    · rw [updateSubmissionStatus_offlineGrades, hbase']
    · split
      · rw [updateSubmissionStatus_offlineGrades, hbase']
      · rw [List.filter_filter, updateSubmissionStatus_offlineGrades, hbase']
        apply List.filter_congr
        intro g _
        by_cases hg : g.submissionId = -(lid : Int)
        · have hgt : ¬ g.submissionId = -(t.localId : Int) := by
            rw [hg]
            intro hh
            exact hne (by omega)
          simp [hg, hgt, hne]
        · simp [hg]


/-- `updateSubmissionStatus` of a different record leaves the rows of
`lid` unchanged (as a filtered sublist). -/
theorem updateSubmissionStatus_rowsFor_other (d : DB) (lid tid : Nat)
    (st : SubStatus) (sid : Option Nat) (err : Option String) (now : Nat)
    (hne : tid ≠ lid) :
    (updateSubmissionStatus d tid st sid err now).offlineSubmissions.filter
        (fun r => r.localId == lid) =
      d.offlineSubmissions.filter (fun r => r.localId == lid) := by
  unfold updateSubmissionStatus
  apply filter_map_fixed
  · intro x _
    by_cases hx : x.localId = tid <;> simp [hx]
  · intro x _ hpx
    rw [if_neg (by simp at hpx; omega)]

/-- Syncing a different record leaves the submission rows of `lid`
unchanged. -/
theorem syncSubmission_rowsFor_other (env : SyncEnv) (d : DB)
    (t : OfflineSubmission) (lid : Nat) (hne : t.localId ≠ lid) :
    (syncSubmission env d t).offlineSubmissions.filter (fun r => r.localId == lid) =
      d.offlineSubmissions.filter (fun r => r.localId == lid) := by
  have hmid : (uploadPendingImages env (updateSubmissionStatus d t.localId
      SubStatus.syncing none none env.now) t).1.offlineSubmissions =
      (updateSubmissionStatus d t.localId SubStatus.syncing none none
        env.now).offlineSubmissions :=
    (uploadLoop_frame env _ _ _).1
  have hstep : ∀ (st : SubStatus) (sid : Option Nat) (err : Option String),
      (updateSubmissionStatus (uploadPendingImages env (updateSubmissionStatus d
        t.localId SubStatus.syncing none none env.now) t).1 t.localId st sid err
        env.now).offlineSubmissions.filter (fun r => r.localId == lid) =
      d.offlineSubmissions.filter (fun r => r.localId == lid) := by
    intro st sid err
    rw [show (updateSubmissionStatus (uploadPendingImages env
        (updateSubmissionStatus d t.localId SubStatus.syncing none none env.now)
        t).1 t.localId st sid err env.now).offlineSubmissions =
      (uploadPendingImages env (updateSubmissionStatus d t.localId SubStatus.syncing
        none none env.now) t).1.offlineSubmissions.map (fun s =>
          if s.localId = t.localId then
            { s with
                status := st,
                syncedAt := if st = SubStatus.synced then some env.now else none,
                serverSubmissionId := sid,
                errorMessage := err }
          else s) from rfl]
    rw [hmid]
    rw [show (updateSubmissionStatus d t.localId SubStatus.syncing none none
      env.now).offlineSubmissions = d.offlineSubmissions.map (fun s =>
        if s.localId = t.localId then
          { s with
              status := SubStatus.syncing,
              syncedAt := if SubStatus.syncing = SubStatus.synced then some env.now
                else none,
              serverSubmissionId := none,
              errorMessage := none }
        else s) from rfl]
    rw [List.map_map]
    apply filter_map_fixed
    · intro x _
      by_cases hx : x.localId = t.localId <;> simp [Function.comp, hx]
    · intro x _ hpx
      have hxl : x.localId = lid := by simpa using hpx
      have hxt : ¬ x.localId = t.localId := by omega
      simp [Function.comp, hxt]
  unfold syncSubmission
  dsimp only
  split
  · exact hstep SubStatus.failed none _
  · split
    · exact hstep SubStatus.failed none _
    · exact hstep SubStatus.failed none _
    · split
      · exact hstep SubStatus.synced _ none
      · exact hstep SubStatus.synced _ none

/-- `submissionSyncError` depends only on the record's own images and
grades. -/
theorem submissionSyncError_congr (env : SyncEnv) (d1 d2 : DB)
    (sub : OfflineSubmission)
    (himg : getPendingImagesForSubmission d1 sub.localId =
      getPendingImagesForSubmission d2 sub.localId)
    (hgr : d1.offlineGrades.filter (fun g => g.submissionId = -(sub.localId : Int)) =
      d2.offlineGrades.filter (fun g => g.submissionId = -(sub.localId : Int))) :
    submissionSyncError env d1 sub = submissionSyncError env d2 sub := by
  unfold submissionSyncError
  rw [himg, uploadLoop_snd_congr env _ d1 d2, hgr]

/-- When `submissionSyncError` reports no error, `syncSubmission` marks the
record `'synced'` with a server id. -/
theorem syncSubmission_success_rows (env : SyncEnv) (d : DB)
    (sub : OfflineSubmission) (h : submissionSyncError env d sub = none) :
    ∀ r ∈ (syncSubmission env d sub).offlineSubmissions, r.localId = sub.localId →
      r.status = SubStatus.synced ∧ r.serverSubmissionId.isSome = true := by
  have hsnd := uploadLoop_snd_congr env (getPendingImagesForSubmission d sub.localId)
    (updateSubmissionStatus d sub.localId SubStatus.syncing none none env.now) d
    sub.answers
  have hgr := (uploadLoop_frame env (getPendingImagesForSubmission d sub.localId)
    (updateSubmissionStatus d sub.localId SubStatus.syncing none none env.now)
    sub.answers).2.1
  unfold submissionSyncError at h
  unfold syncSubmission uploadPendingImages
  dsimp only at h ⊢
  rw [show getPendingImagesForSubmission (updateSubmissionStatus d sub.localId
      SubStatus.syncing none none env.now) sub.localId =
    getPendingImagesForSubmission d sub.localId from rfl]
  rw [hsnd, hgr]
  rw [show (updateSubmissionStatus d sub.localId SubStatus.syncing none none
    env.now).offlineGrades = d.offlineGrades from rfl]
  cases hm : (uploadLoop env d sub.answers
      (getPendingImagesForSubmission d sub.localId)).2 with
  | error e0 =>
    rw [hm] at h
    dsimp only at h
    exact Option.noConfusion h
  | ok updatedAnswers =>
    rw [hm] at h
    dsimp only at h ⊢
    cases hs : env.submitResult sub.localId
        ((d.offlineGrades.filter (fun g => g.submissionId = -(sub.localId : Int))).foldl
          (fun a g => attachGradeToAnswers a (-g.answerId) g.marks) updatedAnswers) with
    | netErr msg =>
      rw [hs] at h
      dsimp only at h
      exact Option.noConfusion h
    | httpErr body =>
      rw [hs] at h
      dsimp only at h
      exact Option.noConfusion h
    | success serverId =>
      rw [hs] at h
      dsimp only
      have hrows : ∀ r ∈ (updateSubmissionStatus (uploadLoop env
          (updateSubmissionStatus d sub.localId SubStatus.syncing none none env.now)
          sub.answers (getPendingImagesForSubmission d sub.localId)).1 sub.localId
          SubStatus.synced (some serverId) none env.now).offlineSubmissions,
          r.localId = sub.localId →
          r.status = SubStatus.synced ∧ r.serverSubmissionId.isSome = true := by
        intro r hr hrid
        simp only [updateSubmissionStatus] at hr
        obtain ⟨r0, _, heq⟩ := List.mem_map.mp hr
        by_cases h0 : r0.localId = sub.localId
        · rw [if_pos h0] at heq
          rw [← heq]
          exact ⟨rfl, rfl⟩
        · rw [if_neg h0] at heq
          rw [← heq] at hrid
          exact absurd hrid h0
      split
      · exact hrows
      · intro r hr hrid
        exact hrows r hr hrid


/-- Folding a cycle over records none of which owns `lid` leaves the rows
of `lid` unchanged. -/
theorem syncFold_rowsFor_other (env : SyncEnv) :
    ∀ (pending : List OfflineSubmission) (d : DB) (lid : Nat),
      (∀ u ∈ pending, u.localId ≠ lid) →
      ((pending.foldl (fun acc sub => syncSubmission env acc sub)
          d).offlineSubmissions.filter (fun r => r.localId == lid)) =
        d.offlineSubmissions.filter (fun r => r.localId == lid)
  | [], _, _, _ => rfl
  | t :: rest, d, lid, hids => by
    rw [List.foldl_cons,
      syncFold_rowsFor_other env rest _ lid (fun u hu => hids u (by simp [hu]))]
    exact syncSubmission_rowsFor_other env d t lid (hids t (by simp))

/-- Within one cycle, a pending record whose own sync succeeds ends
`'synced'` with a server id, regardless of what happens to the other
records processed before or after it. -/
theorem syncFold_success (env : SyncEnv) :
    ∀ (pending : List OfflineSubmission) (d : DB) (s : OfflineSubmission),
      s ∈ pending →
      (pending.map (fun u => u.localId)).Nodup →
      (d.pendingImages.map (fun im => im.localId)).Nodup →
      submissionSyncError env d s = none →
      ∀ r ∈ (pending.foldl (fun acc sub => syncSubmission env acc sub)
          d).offlineSubmissions,
        r.localId = s.localId →
        r.status = SubStatus.synced ∧ r.serverSubmissionId.isSome = true
  | [], _, _, hmem, _, _, _ => absurd hmem (List.not_mem_nil _)
  | t :: rest, d, s, hmem, hnodup, himgnodup, hok => by
    rw [List.foldl_cons]
    rcases List.mem_cons.mp hmem with heq | hrest
    · subst heq
      have hids : ∀ u ∈ rest, u.localId ≠ s.localId := by
        intro u hu hequ
        rw [List.map_cons, List.nodup_cons] at hnodup
        exact hnodup.1 (hequ ▸ List.mem_map_of_mem _ hu)
      intro r hr hrid
      have hmemf : r ∈ ((rest.foldl (fun acc sub => syncSubmission env acc sub)
          (syncSubmission env d s)).offlineSubmissions.filter
          (fun r => r.localId == s.localId)) :=
        List.mem_filter.mpr ⟨hr, by simp [hrid]⟩
      rw [syncFold_rowsFor_other env rest _ s.localId hids] at hmemf
      obtain ⟨hrm, _⟩ := List.mem_filter.mp hmemf
      exact syncSubmission_success_rows env d s hok r hrm hrid
    · have hne : t.localId ≠ s.localId := by
        intro hequ
        rw [List.map_cons, List.nodup_cons] at hnodup
        exact hnodup.1 (hequ ▸ List.mem_map_of_mem _ hrest)
      refine syncFold_success env rest (syncSubmission env d t) s hrest ?_ ?_ ?_
      · rw [List.map_cons, List.nodup_cons] at hnodup
        exact hnodup.2
      · rw [syncSubmission_imageIds]
        exact himgnodup
      · rw [submissionSyncError_congr env (syncSubmission env d t) d s
          (syncSubmission_imagesFor_other env d t s.localId (Ne.symm hne) himgnodup)
          (syncSubmission_gradesFor_other env d t s.localId (Ne.symm hne))]
        exact hok

/-- Syncing records never deletes a grade keyed to a server-known (positive)
submission id: with only such grades present the table is unchanged. -/
theorem syncSubmission_grades_positive (env : SyncEnv) (d : DB)
    (t : OfflineSubmission) (hpos : ∀ g ∈ d.offlineGrades, 0 < g.submissionId) :
    (syncSubmission env d t).offlineGrades = d.offlineGrades := by
  have hbase' : (uploadPendingImages env (updateSubmissionStatus d t.localId
      SubStatus.syncing none none env.now) t).1.offlineGrades = d.offlineGrades :=
    (uploadLoop_frame env _ _ _).2.1
  unfold syncSubmission
  dsimp only
  split
  · rw [updateSubmissionStatus_offlineGrades, hbase']
  · split
    · rw [updateSubmissionStatus_offlineGrades, hbase']
    · rw [updateSubmissionStatus_offlineGrades, hbase']
    · split
      · rw [updateSubmissionStatus_offlineGrades, hbase']
      · rw [updateSubmissionStatus_offlineGrades, hbase']
        apply List.filter_eq_self.mpr
        intro g hg
        have := hpos g hg
        simp only [decide_eq_true_eq]
        omega

/-- The whole per-record fold keeps such a grades table unchanged. -/
theorem syncFold_grades_positive (env : SyncEnv) :
    ∀ (pending : List OfflineSubmission) (d : DB),
      (∀ g ∈ d.offlineGrades, 0 < g.submissionId) →
      (pending.foldl (fun acc sub => syncSubmission env acc sub) d).offlineGrades =
        d.offlineGrades
  | [], _, _ => rfl
  | t :: rest, d, hpos => by
    rw [List.foldl_cons]
    have hstep := syncSubmission_grades_positive env d t hpos
    rw [syncFold_grades_positive env rest _ (by rw [hstep]; exact hpos), hstep]


/-- `syncSchools` touches only the schools cache and its sync timestamp. -/
theorem syncSchools_frame (env : SyncEnv) (d : DB) :
    (syncSchools env d).offlineSubmissions = d.offlineSubmissions ∧
    (syncSchools env d).pendingImages = d.pendingImages ∧
    (syncSchools env d).offlineGrades = d.offlineGrades ∧
    (syncSchools env d).syncedSubmissions = d.syncedSubmissions ∧
    (syncSchools env d).teacherSession = d.teacherSession := by
  unfold syncSchools cacheSchools
  cases env.schoolsResult <;> exact ⟨rfl, rfl, rfl, rfl, rfl⟩

/-- `markGradesAsSynced` touches only the grades table. -/
theorem markGradesAsSynced_frame :
    ∀ (ids : List Nat) (d : DB),
      (markGradesAsSynced d ids).offlineSubmissions = d.offlineSubmissions ∧
      (markGradesAsSynced d ids).pendingImages = d.pendingImages ∧
      (markGradesAsSynced d ids).syncedSubmissions = d.syncedSubmissions ∧
      (markGradesAsSynced d ids).teacherSession = d.teacherSession
  | [], _ => ⟨rfl, rfl, rfl, rfl⟩
  | i :: rest, d => by
    simp only [markGradesAsSynced, List.foldl_cons]
    exact markGradesAsSynced_frame rest _

/-- `pushOfflineGrades` touches only the grades table (client side). -/
theorem pushOfflineGrades_frame (env : SyncEnv) (d : DB) (srv : Server) :
    (pushOfflineGrades env d srv).1.offlineSubmissions = d.offlineSubmissions ∧
    (pushOfflineGrades env d srv).1.pendingImages = d.pendingImages ∧
    (pushOfflineGrades env d srv).1.syncedSubmissions = d.syncedSubmissions ∧
    (pushOfflineGrades env d srv).1.teacherSession = d.teacherSession := by
  unfold pushOfflineGrades
  dsimp only
  split
  · exact ⟨rfl, rfl, rfl, rfl⟩
  · split
    · exact ⟨rfl, rfl, rfl, rfl⟩
    · split
      · exact ⟨rfl, rfl, rfl, rfl⟩
      · exact ⟨rfl, rfl, rfl, rfl⟩
      · exact markGradesAsSynced_frame _ _

/-- `cacheImage` touches only the image cache. -/
theorem cacheImage_frame (d : DB) (url : String) (blob : List Nat) (now : Nat) :
    (cacheImage d url blob now).offlineSubmissions = d.offlineSubmissions ∧
    (cacheImage d url blob now).offlineGrades = d.offlineGrades ∧
    (cacheImage d url blob now).syncedSubmissions = d.syncedSubmissions ∧
    (cacheImage d url blob now).teacherSession = d.teacherSession := by
  unfold cacheImage
  split
  · exact ⟨rfl, rfl, rfl, rfl⟩
  · split
    · exact ⟨rfl, rfl, rfl, rfl⟩
    · exact ⟨rfl, rfl, rfl, rfl⟩

/-- One `cacheAnswerStep` touches only the image cache. -/
theorem cacheAnswerStep_frame (env : SyncEnv) (d0 : DB) (a : SyncedAnswer) :
    (cacheAnswerStep env d0 a).offlineSubmissions = d0.offlineSubmissions ∧
    (cacheAnswerStep env d0 a).offlineGrades = d0.offlineGrades ∧
    (cacheAnswerStep env d0 a).syncedSubmissions = d0.syncedSubmissions ∧
    (cacheAnswerStep env d0 a).teacherSession = d0.teacherSession := by
  unfold cacheAnswerStep
  cases a.answerImageUrl with
  | none => exact ⟨rfl, rfl, rfl, rfl⟩
  | some url =>
    dsimp only
    split
    · cases env.imageFetch url with
      | some blob => exact cacheImage_frame d0 url blob env.now
      | none => exact ⟨rfl, rfl, rfl, rfl⟩
    · exact ⟨rfl, rfl, rfl, rfl⟩

/-- The inner image-caching fold of `syncGradingData` touches only the
image cache. -/
theorem cacheAnswersFold_frame (env : SyncEnv) :
    ∀ (answers : List SyncedAnswer) (d : DB),
      (answers.foldl (cacheAnswerStep env) d).offlineSubmissions =
        d.offlineSubmissions ∧
      (answers.foldl (cacheAnswerStep env) d).offlineGrades = d.offlineGrades ∧
      (answers.foldl (cacheAnswerStep env) d).syncedSubmissions =
        d.syncedSubmissions ∧
      (answers.foldl (cacheAnswerStep env) d).teacherSession = d.teacherSession
  | [], _ => ⟨rfl, rfl, rfl, rfl⟩
  | a :: rest, d => by
    rw [List.foldl_cons]
    have hs := cacheAnswerStep_frame env d a
    have ih := cacheAnswersFold_frame env rest (cacheAnswerStep env d a)
    exact ⟨by rw [ih.1, hs.1], by rw [ih.2.1, hs.2.1],
      by rw [ih.2.2.1, hs.2.2.1], by rw [ih.2.2.2, hs.2.2.2]⟩

/-- `cachePulledImages` touches only the image cache. -/
theorem cachePulledImages_frame (env : SyncEnv) :
    ∀ (subs : List SyncedSubmission) (d : DB),
      (cachePulledImages env d subs).offlineSubmissions = d.offlineSubmissions ∧
      (cachePulledImages env d subs).offlineGrades = d.offlineGrades ∧
      (cachePulledImages env d subs).syncedSubmissions = d.syncedSubmissions ∧
      (cachePulledImages env d subs).teacherSession = d.teacherSession
  | [], _ => ⟨rfl, rfl, rfl, rfl⟩
  | sub :: rest, d => by
    unfold cachePulledImages
    rw [List.foldl_cons]
    have hstep := cacheAnswersFold_frame env sub.subjectiveAnswers d
    have ih := cachePulledImages_frame env rest
      (sub.subjectiveAnswers.foldl (cacheAnswerStep env) d)
    unfold cachePulledImages at ih
    exact ⟨by rw [ih.1, hstep.1], by rw [ih.2.1, hstep.2.1],
      by rw [ih.2.2.1, hstep.2.2.1], by rw [ih.2.2.2, hstep.2.2.2]⟩


/-- `syncGradingData` touches only the grading cache and image cache. -/
theorem syncGradingData_frame (env : SyncEnv) (d : DB) (srv : Server) :
    (syncGradingData env d srv).offlineSubmissions = d.offlineSubmissions ∧
    (syncGradingData env d srv).offlineGrades = d.offlineGrades ∧
    (syncGradingData env d srv).teacherSession = d.teacherSession := by
  unfold syncGradingData
  cases hses : d.teacherSession with
  | none => exact ⟨rfl, rfl, hses⟩
  | some session =>
    cases env.pullOutcome with
    | thrown => exact ⟨rfl, rfl, hses⟩
    | response ok =>
      cases ok with
      | false => exact ⟨rfl, rfl, hses⟩
      | true =>
        dsimp only
        have hframe := cachePulledImages_frame env
          ((serverGradingGet srv session.userId).map
            (mapPulledSubmission session.userId env.now))
          (cacheSyncedSubmissions d ((serverGradingGet srv session.userId).map
            (mapPulledSubmission session.userId env.now)))
        refine ⟨hframe.1, hframe.2.1, ?_⟩
        rw [hframe.2.2.2]
        exact hses

/-- `syncSubmission` never touches the grading cache or the session. -/
theorem syncSubmission_misc_frame (env : SyncEnv) (d : DB) (t : OfflineSubmission) :
    (syncSubmission env d t).syncedSubmissions = d.syncedSubmissions ∧
    (syncSubmission env d t).teacherSession = d.teacherSession := by
  have hframe := uploadLoop_frame env (getPendingImagesForSubmission
    (updateSubmissionStatus d t.localId SubStatus.syncing none none env.now)
    t.localId) (updateSubmissionStatus d t.localId SubStatus.syncing none none
    env.now) t.answers
  unfold syncSubmission
  dsimp only
  split
  · exact ⟨hframe.2.2.1, hframe.2.2.2.1⟩
  · split
    · exact ⟨hframe.2.2.1, hframe.2.2.2.1⟩
    · exact ⟨hframe.2.2.1, hframe.2.2.2.1⟩
    · split
      · exact ⟨hframe.2.2.1, hframe.2.2.2.1⟩
      · exact ⟨hframe.2.2.1, hframe.2.2.2.1⟩

/-- Sessions and the grading cache survive the per-record fold. -/
theorem syncFold_misc_frame (env : SyncEnv) :
    ∀ (pending : List OfflineSubmission) (d : DB),
      ((pending.foldl (fun acc sub => syncSubmission env acc sub)
        d)).syncedSubmissions = d.syncedSubmissions ∧
      ((pending.foldl (fun acc sub => syncSubmission env acc sub)
        d)).teacherSession = d.teacherSession
  | [], _ => ⟨rfl, rfl⟩
  | t :: rest, d => by
    rw [List.foldl_cons]
    have hs := syncSubmission_misc_frame env d t
    have ih := syncFold_misc_frame env rest (syncSubmission env d t)
    exact ⟨by rw [ih.1, hs.1], by rw [ih.2, hs.2]⟩

/-- With no pending grades, the push is a no-op. -/
theorem pushOfflineGrades_empty (env : SyncEnv) (d : DB) (srv : Server)
    (h : (getPendingOfflineGrades d).isEmpty = true) :
    pushOfflineGrades env d srv = (d, srv) := by
  unfold pushOfflineGrades
  dsimp only
  rw [if_pos h]

/-- A `put` keeps every existing key reachable. -/
theorem putSynced_preserves_key (tbl : List SyncedSubmission)
    (x : SyncedSubmission) (k : Int)
    (h : ∃ t ∈ tbl, t.submissionId = k) :
    ∃ t ∈ putSyncedSubmission tbl x, t.submissionId = k := by
  obtain ⟨t, ht, hk⟩ := h
  unfold putSyncedSubmission
  split
  · by_cases heq : t.submissionId = x.submissionId
    · refine ⟨x, List.mem_map.mpr ⟨t, ht, by rw [if_pos heq]⟩, by rw [← heq, hk]⟩
    · exact ⟨t, List.mem_map.mpr ⟨t, ht, by rw [if_neg heq]⟩, hk⟩
  · exact ⟨t, List.mem_append_left _ ht, hk⟩

/-- A `put` makes the put row's key reachable. -/
theorem putSynced_key_self (tbl : List SyncedSubmission) (x : SyncedSubmission) :
    ∃ t ∈ putSyncedSubmission tbl x, t.submissionId = x.submissionId := by
  unfold putSyncedSubmission
  split
  · rename_i hany
    obtain ⟨y, hy, hyk⟩ := List.any_eq_true.mp hany
    refine ⟨x, List.mem_map.mpr ⟨y, hy, ?_⟩, rfl⟩
    rw [if_pos (by simpa using hyk)]
  · exact ⟨x, List.mem_append_right _ (List.mem_singleton.mpr rfl), rfl⟩

/-- The fold of puts keeps a reachable key reachable. -/
theorem bulkPut_preserves_key :
    ∀ (subs : List SyncedSubmission) (tbl : List SyncedSubmission) (k : Int),
      (∃ t ∈ tbl, t.submissionId = k) →
      ∃ t ∈ subs.foldl putSyncedSubmission tbl, t.submissionId = k
  | [], _, _, h => h
  | y :: rest, tbl, k, h => by
    rw [List.foldl_cons]
    exact bulkPut_preserves_key rest _ k (putSynced_preserves_key tbl y k h)

/-- Every row handed to `bulkPut` ends with its key present in the table. -/
theorem bulkPut_key_present :
    ∀ (subs : List SyncedSubmission) (tbl : List SyncedSubmission)
      (x : SyncedSubmission), x ∈ subs →
      ∃ t ∈ subs.foldl putSyncedSubmission tbl, t.submissionId = x.submissionId
  | [], _, _, hx => absurd hx (List.not_mem_nil _)
  | y :: rest, tbl, x, hx => by
    rw [List.foldl_cons]
    rcases List.mem_cons.mp hx with heq | hrest
    · subst heq
      exact bulkPut_preserves_key rest _ _ (putSynced_key_self tbl x)
    · exact bulkPut_key_present rest _ x hrest


/-- An unguarded, non-throwing entry runs the full pipeline. -/
theorem performSync_run (env : SyncEnv) (st : SyncState) (db : DB) (srv : Server)
    (hst : st.isSyncing = false) (hthrow : env.throwEarly = none) :
    performSync env st db srv =
      (let db1 := if shouldSyncSchools db env.now then syncSchools env db else db
       let pending := getPendingSubmissions db1
       let db2 := pending.foldl (fun d sub => syncSubmission env d sub) db1
       let pushed := pushOfflineGrades env db2 srv
       let db4 := syncGradingData env pushed.1 pushed.2
       { state := { isSyncing := false }, db := db4, server := pushed.2,
         ran := true }) := by
  unfold performSync
  rw [if_neg (by rw [hst]; simp), hthrow]

/-- A logged-in pull replaces the grading cache wholesale from the server
and then caches images. -/
theorem syncGradingData_ok (env : SyncEnv) (d : DB) (srv : Server)
    (sess : TeacherSession) (hsess : d.teacherSession = some sess)
    (hok : env.pullOutcome = HttpOutcome.response true) :
    syncGradingData env d srv =
      cachePulledImages env
        (cacheSyncedSubmissions d ((serverGradingGet srv sess.userId).map
          (mapPulledSubmission sess.userId env.now)))
        ((serverGradingGet srv sess.userId).map
          (mapPulledSubmission sess.userId env.now)) := by
  unfold syncGradingData
  rw [hsess, hok]

/-- C8: a failure in one record or sub-step does not abort the rest of the
cycle.  In any cycle: (1) every pending record whose own sync succeeds ends
`'synced'` with a server id, no matter how the other records, the push or
the pull fare; (2) the grade-push step is still reached after any record
failures, but — its pending query being dead (the C2 bug) — it leaves the
grades table and the server unchanged (for grades keyed to server
submissions, which per-record sync does not delete); (3) if the grading
pull gets an ok response, every submission the server returns for the
teacher lands in the local grading cache. -/
theorem c8_cycle_isolation (env : SyncEnv) (st : SyncState) (db : DB) (srv : Server)
    (hst : st.isSyncing = false) (hthrow : env.throwEarly = none)
    (hsubnodup : (db.offlineSubmissions.map (fun u => u.localId)).Nodup)
    (himgnodup : (db.pendingImages.map (fun im => im.localId)).Nodup) :
    (∀ s ∈ getPendingSubmissions db, submissionSyncError env db s = none →
      ∀ r ∈ (performSync env st db srv).db.offlineSubmissions,
        r.localId = s.localId →
        r.status = SubStatus.synced ∧ r.serverSubmissionId.isSome = true) ∧
    ((∀ g ∈ db.offlineGrades, 0 < g.submissionId) →
      (performSync env st db srv).db.offlineGrades = db.offlineGrades ∧
      (performSync env st db srv).server = srv) ∧
    (∀ sess, env.pullOutcome = HttpOutcome.response true →
      db.teacherSession = some sess →
      ∀ row ∈ serverGradingGet (performSync env st db srv).server sess.userId,
        ∃ c ∈ (performSync env st db srv).db.syncedSubmissions,
          c.submissionId = row.submission_id) := by
  rw [performSync_run env st db srv hst hthrow]
  dsimp only
  have hdb1 : (if shouldSyncSchools db env.now then syncSchools env db
      else db).offlineSubmissions = db.offlineSubmissions ∧
      (if shouldSyncSchools db env.now then syncSchools env db
        else db).pendingImages = db.pendingImages ∧
      (if shouldSyncSchools db env.now then syncSchools env db
        else db).offlineGrades = db.offlineGrades ∧
      (if shouldSyncSchools db env.now then syncSchools env db
        else db).teacherSession = db.teacherSession := by
    split
    · have h := syncSchools_frame env db
      exact ⟨h.1, h.2.1, h.2.2.1, h.2.2.2.2⟩
    · exact ⟨rfl, rfl, rfl, rfl⟩
  have hpend : getPendingSubmissions (if shouldSyncSchools db env.now then
      syncSchools env db else db) = getPendingSubmissions db := by
    unfold getPendingSubmissions
    rw [hdb1.1]
  rw [hpend]
  set db1 := if shouldSyncSchools db env.now then syncSchools env db else db with hdb1def
  set db2 := (getPendingSubmissions db).foldl (fun d sub => syncSubmission env d sub)
    db1 with hdb2def
  have hdb2sess : db2.teacherSession = db.teacherSession := by
    rw [hdb2def, (syncFold_misc_frame env _ _).2, hdb1.2.2.2]
  refine ⟨?_, ?_, ?_⟩
  · intro s hs hok r hr hrid
    rw [(syncGradingData_frame env _ _).1, (pushOfflineGrades_frame env _ _).1] at hr
    refine syncFold_success env (getPendingSubmissions db) db1 s hs ?_ ?_ ?_ r hr hrid
    · exact List.Nodup.sublist ((List.filter_sublist _).map _) hsubnodup
    · rw [hdb1.2.1]
      exact himgnodup
    · rw [submissionSyncError_congr env db1 db s
        (by unfold getPendingImagesForSubmission; rw [hdb1.2.1])
        (by rw [hdb1.2.2.1])]
      exact hok
  · intro hpos
    have hgr2 : db2.offlineGrades = db.offlineGrades := by
      rw [hdb2def, syncFold_grades_positive env _ _ (by rw [hdb1.2.2.1]; exact hpos),
        hdb1.2.2.1]
    rw [pushOfflineGrades_noop env db2 srv]
    dsimp only
    exact ⟨by rw [(syncGradingData_frame env db2 srv).2.1, hgr2], rfl⟩
  · intro sess hpullok hsess row hrow
    rw [syncGradingData_ok env (pushOfflineGrades env db2 srv).1
      (pushOfflineGrades env db2 srv).2 sess
      (by rw [(pushOfflineGrades_frame env _ _).2.2.2, hdb2sess]; exact hsess)
      hpullok]
    have hx : mapPulledSubmission sess.userId env.now row ∈
        ((serverGradingGet (pushOfflineGrades env db2 srv).2 sess.userId).map
          (mapPulledSubmission sess.userId env.now)) :=
      List.mem_map_of_mem _ hrow
    have hput := bulkPut_key_present
      ((serverGradingGet (pushOfflineGrades env db2 srv).2 sess.userId).map
        (mapPulledSubmission sess.userId env.now))
      (pushOfflineGrades env db2 srv).1.syncedSubmissions
      (mapPulledSubmission sess.userId env.now row) hx
    rw [(cachePulledImages_frame env _ _).2.2.1]
    exact hput


/-- C8 (witness): with record 1 failing and record 2 succeeding, record 2
is synced, the grade-push step passes through leaving grades and server
unchanged, and the pulled grading rows are cached. -/
theorem c8_cycle_isolation_witness :
    (∀ r ∈ (performSync envMixed { isSyncing := false } dbTwoSubs
        serverWithRow10).db.offlineSubmissions,
      r.localId = 2 →
      r.status = SubStatus.synced ∧ r.serverSubmissionId.isSome = true) ∧
    ((performSync envMixed { isSyncing := false } dbTwoSubs
        serverWithRow10).db.offlineGrades = dbTwoSubs.offlineGrades ∧
      (performSync envMixed { isSyncing := false } dbTwoSubs
        serverWithRow10).server = serverWithRow10) ∧
    (∀ row ∈ serverGradingGet (performSync envMixed { isSyncing := false } dbTwoSubs
        serverWithRow10).server 7,
      ∃ c ∈ (performSync envMixed { isSyncing := false } dbTwoSubs
          serverWithRow10).db.syncedSubmissions,
        c.submissionId = row.submission_id) := by
  have h := c8_cycle_isolation envMixed { isSyncing := false } dbTwoSubs
    serverWithRow10 rfl rfl (by decide) (by decide)
  refine ⟨?_, ?_, ?_⟩
  · intro r hr hrid
    exact h.1 pendingSub2 (by decide) (by decide) r hr hrid
  · exact h.2.1 (by decide)
  · exact h.2.2 teacherSession7 rfl rfl


-- ============ GRADE MERGE (C1) ============

/-- C1 (counterexample): the grade-merge claim fails as stated.  In the
concrete scenario the edit stays unsynced (the dead pending query never
sends a push), yet the grading pull bulk-overwrites the cached projection
with the server value 2, clobbering the locally edited 4 — the code has
no per-field filtering on pull. -/
theorem c1_grade_merge_counterexample :
    ¬ gradeMergeProperty envPushFails { isSyncing := false } dbWithEdit
      serverWithRow10 := by
  unfold gradeMergeProperty
  decide

/-- `find?` over a map by a key-preserving function. -/
theorem find?_map_key {α β : Type} (f : α → β) (p : α → Bool) (q : β → Bool)
    (hpq : ∀ a, q (f a) = p a) :
    ∀ l : List α, (l.map f).find? q = (l.find? p).map f
  | [] => rfl
  | a :: rest => by
    rw [List.map_cons]
    cases ha : p a with
    | true =>
      rw [List.find?_cons_of_pos _ (by rw [hpq a, ha]),
        List.find?_cons_of_pos _ ha, Option.map_some']
    | false =>
      rw [List.find?_cons_of_neg _ (by rw [hpq a, ha]; simp),
        List.find?_cons_of_neg _ (by rw [ha]; simp)]
      exact find?_map_key f p q hpq rest

/-- A `put` of a row makes that row the `find?` result for its key. -/
theorem putSynced_find_self (tbl : List SyncedSubmission) (x : SyncedSubmission) :
    (putSyncedSubmission tbl x).find? (fun t => t.submissionId == x.submissionId) =
      some x := by
  unfold putSyncedSubmission
  split
  · rename_i hany
    induction tbl with
    | nil => simp at hany
    | cons y rest ih =>
      by_cases hy : y.submissionId = x.submissionId
      · rw [List.map_cons, if_pos hy, List.find?_cons_of_pos _ (by simp)]
      · rw [List.map_cons, if_neg hy, List.find?_cons_of_neg _ (by simp [hy])]
        exact ih (by
          rcases List.any_eq_true.mp hany with ⟨z, hz, hzk⟩
          rcases List.mem_cons.mp hz with hzy | hzr
          · exact absurd (by simpa using (hzy ▸ hzk : (z.submissionId ==
              x.submissionId) = true)) (hzy ▸ hy)
          · exact List.any_eq_true.mpr ⟨z, hzr, hzk⟩)
  · induction tbl with
    | nil => simp [List.find?]
    | cons y rest ih =>
      rename_i hany
      have hy : ¬ y.submissionId = x.submissionId := by
        intro hy
        exact hany (List.any_eq_true.mpr ⟨y, by simp, by simp [hy]⟩)
      rw [List.cons_append, List.find?_cons_of_neg _ (by simp [hy])]
      exact ih (by
        intro hc
        rcases List.any_eq_true.mp hc with ⟨z, hz, hzk⟩
        exact hany (List.any_eq_true.mpr ⟨z, by simp [hz], hzk⟩))

/-- Replacing rows of one key does not change `find?` at a different key. -/
theorem mapPut_find_preserve (x : SyncedSubmission) (k : Int)
    (hne : x.submissionId ≠ k) :
    ∀ tbl : List SyncedSubmission,
      (tbl.map (fun t => if t.submissionId = x.submissionId then x else t)).find?
          (fun t => t.submissionId == k) =
        tbl.find? (fun t => t.submissionId == k)
  | [] => rfl
  | y :: rest => by
    rw [List.map_cons]
    by_cases hy : y.submissionId = x.submissionId
    · rw [if_pos hy]
      rw [List.find?_cons_of_neg _ (by simp; omega),
        List.find?_cons_of_neg _ (by simp; omega)]
      exact mapPut_find_preserve x k hne rest
    · rw [if_neg hy]
      by_cases hyk : y.submissionId = k
      · rw [List.find?_cons_of_pos _ (by simp [hyk]),
          List.find?_cons_of_pos _ (by simp [hyk])]
      · rw [List.find?_cons_of_neg _ (by simp [hyk]),
          List.find?_cons_of_neg _ (by simp [hyk])]
        exact mapPut_find_preserve x k hne rest

/-- A `put` of a row with a different key does not change the `find?`
result for key `k`. -/
theorem putSynced_find_preserve (tbl : List SyncedSubmission)
    (x : SyncedSubmission) (k : Int) (hne : x.submissionId ≠ k) :
    (putSyncedSubmission tbl x).find? (fun t => t.submissionId == k) =
      tbl.find? (fun t => t.submissionId == k) := by
  unfold putSyncedSubmission
  split
  · exact mapPut_find_preserve x k hne tbl
  · rw [List.find?_append]
    have hx : List.find? (fun t => t.submissionId == k) [x] = none := by
      rw [List.find?_cons_of_neg _ (by simp [hne])]
      rfl
    rw [hx]
    simp

/-- Folding puts whose keys all differ from `k` preserves `find?` at `k`. -/
theorem bulkPutFold_find_preserve :
    ∀ (subs : List SyncedSubmission) (tbl : List SyncedSubmission) (k : Int),
      (∀ y ∈ subs, y.submissionId ≠ k) →
      (subs.foldl putSyncedSubmission tbl).find? (fun t => t.submissionId == k) =
        tbl.find? (fun t => t.submissionId == k)
  | [], _, _, _ => rfl
  | y :: rest, tbl, k, hne => by
    rw [List.foldl_cons,
      bulkPutFold_find_preserve rest _ k (fun z hz => hne z (by simp [hz])),
      putSynced_find_preserve tbl y k (hne y (by simp))]

/-- If `x` is the unique row with key `k` among the puts, the final table
resolves `k` to `x`. -/
theorem bulkPut_find_unique :
    ∀ (subs : List SyncedSubmission) (tbl : List SyncedSubmission)
      (x : SyncedSubmission) (k : Int), x ∈ subs → x.submissionId = k →
      (∀ y ∈ subs, y.submissionId = k → y = x) →
      (subs.foldl putSyncedSubmission tbl).find? (fun t => t.submissionId == k) =
        some x
  | [], _, _, _, hx, _, _ => absurd hx (List.not_mem_nil _)
  | y :: rest, tbl, x, k, hx, hxk, huniq => by
    rw [List.foldl_cons]
    by_cases hxr : x ∈ rest
    · exact bulkPut_find_unique rest _ x k hxr hxk
        (fun z hz hzk => huniq z (by simp [hz]) hzk)
    · have hxy : y = x := by
        rcases List.mem_cons.mp hx with h | h
        · exact h.symm
        · exact absurd h hxr
      subst hxy
      rw [bulkPutFold_find_preserve rest _ k (fun z hz hzk =>
        hxr ((huniq z (by simp [hz]) hzk) ▸ hz))]
      rw [← hxk]
      exact putSynced_find_self tbl y

/-- `snapshotMarks` depends only on the resolved cache row. -/
theorem snapshotMarks_congr (d1 d2 : DB) (k a : Int)
    (h : d1.syncedSubmissions.find? (fun s => s.submissionId == k) =
      d2.syncedSubmissions.find? (fun s => s.submissionId == k)) :
    snapshotMarks d1 k a = snapshotMarks d2 k a := by
  unfold snapshotMarks
  rw [h]

/-- Marking a grade id leaves every row with that id synced. -/
theorem markGrades_id_synced (d : DB) (gid : Nat) :
    ∀ h ∈ (markGradesAsSynced d [gid]).offlineGrades, h.id = gid →
      h.synced = true := by
  intro h hh hid
  rw [markGradesAsSynced_eq] at hh
  obtain ⟨h0, _, heq⟩ := List.mem_map.mp hh
  by_cases hin : h0.id ∈ [gid]
  · rw [if_pos hin] at heq
    rw [← heq]
  · rw [if_neg hin] at heq
    rw [← heq] at hid
    exact absurd (List.mem_singleton.mpr hid) hin

/-- `serverApplyAnswerMark` then `serverApplySubmissionStatus` is a map of
the composite row update. -/
theorem serverPost_single (srv : Server) (sid aid m : Int)
    (comp : List (Int × String)) :
    serverGradingPost srv [(sid, [(aid, m)])] comp =
      serverApplySubmissionStatus (serverApplyAnswerMark srv aid m) sid comp := rfl


/-- If the server holds a unique pending row for the teacher carrying the
edit's marks, the pull leaves the cached projection showing those marks. -/
theorem syncGradingData_reflects (env : SyncEnv) (d : DB) (srv2 : Server)
    (sess : TeacherSession) (g : OfflineGrade) (row2 : ServerSubmissionRow)
    (hsess : d.teacherSession = some sess)
    (hpull : env.pullOutcome = HttpOutcome.response true)
    (hrow2 : row2 ∈ srv2.gradingSubs)
    (hkeys : (srv2.gradingSubs.map (fun r => r.submission_id)).Nodup)
    (hid : row2.submission_id = g.submissionId)
    (ht : row2.submitted_by_teacher = sess.userId)
    (hstatus : row2.status = "pending")
    (hans : (row2.subjectiveAnswers.find? (fun a => a.answer_id == g.answerId)).map
        (fun a => a.marks_awarded) = some (some g.marks)) :
    snapshotMarks (syncGradingData env d srv2) g.submissionId g.answerId =
      some g.marks := by
  rw [syncGradingData_ok env d srv2 sess hsess hpull]
  have hmem2 : row2 ∈ serverGradingGet srv2 sess.userId := by
    unfold serverGradingGet
    exact List.mem_filter.mpr ⟨hrow2, by simp [ht, hstatus]⟩
  have hx : mapPulledSubmission sess.userId env.now row2 ∈
      (serverGradingGet srv2 sess.userId).map
        (mapPulledSubmission sess.userId env.now) :=
    List.mem_map_of_mem _ hmem2
  have huniq : ∀ y ∈ (serverGradingGet srv2 sess.userId).map
      (mapPulledSubmission sess.userId env.now),
      y.submissionId = g.submissionId →
      y = mapPulledSubmission sess.userId env.now row2 := by
    intro y hy hyk
    obtain ⟨y0, hy0, heq⟩ := List.mem_map.mp hy
    have hy0mem : y0 ∈ srv2.gradingSubs :=
      List.Sublist.mem hy0 (List.filter_sublist _)
    have hy0k : y0.submission_id = row2.submission_id := by
      rw [hid]
      rw [← heq] at hyk
      exact hyk
    rw [← heq, List.inj_on_of_nodup_map hkeys hy0mem hrow2 hy0k]
  have hfind := bulkPut_find_unique
    ((serverGradingGet srv2 sess.userId).map (mapPulledSubmission sess.userId env.now))
    d.syncedSubmissions (mapPulledSubmission sess.userId env.now row2)
    g.submissionId hx hid huniq
  unfold snapshotMarks
  rw [show (cachePulledImages env (cacheSyncedSubmissions d
      ((serverGradingGet srv2 sess.userId).map (mapPulledSubmission sess.userId
        env.now))) ((serverGradingGet srv2 sess.userId).map (mapPulledSubmission
        sess.userId env.now))).syncedSubmissions =
    (cacheSyncedSubmissions d ((serverGradingGet srv2 sess.userId).map
      (mapPulledSubmission sess.userId env.now))).syncedSubmissions from
    (cachePulledImages_frame env _ _).2.2.1]
  rw [show (cacheSyncedSubmissions d ((serverGradingGet srv2 sess.userId).map
      (mapPulledSubmission sess.userId env.now))).syncedSubmissions =
    ((serverGradingGet srv2 sess.userId).map (mapPulledSubmission sess.userId
      env.now)).foldl putSyncedSubmission d.syncedSubmissions from rfl]
  rw [hfind]
  have hconv : (mapPulledSubmission sess.userId env.now row2).subjectiveAnswers.find?
      (fun a => a.answerId == g.answerId) =
      (row2.subjectiveAnswers.find? (fun a => a.answer_id == g.answerId)).map
        (fun a =>
          ({ answerId := a.answer_id, questionId := a.question_id,
             answerText := a.answer_text, answerImageUrl := a.answer_image_url,
             marksAwarded := a.marks_awarded, questionText := a.question_text,
             questionType := a.question_type,
             maxMarks := a.max_marks } : SyncedAnswer)) := by
    exact find?_map_key _ _ _ (fun a => rfl) row2.subjectiveAnswers
  dsimp only
  rw [hconv]
  cases hfa : row2.subjectiveAnswers.find? (fun a => a.answer_id == g.answerId) with
  | none =>
    rw [hfa] at hans
    simp at hans
  | some a0 =>
    rw [hfa] at hans
    simp only [Option.map_some', Option.some.injEq] at hans
    dsimp only [Option.map_some']
    exact hans

/-- If the server has no pending row for the teacher with the edit's key,
the pull leaves the cached row for that key untouched. -/
theorem syncGradingData_preserves_key (env : SyncEnv) (d : DB) (srv2 : Server)
    (k : Int)
    (hnokey : ∀ sess2, d.teacherSession = some sess2 →
      ∀ r ∈ srv2.gradingSubs, r.submitted_by_teacher = sess2.userId →
        r.status = "pending" → r.submission_id ≠ k) :
    (syncGradingData env d srv2).syncedSubmissions.find?
        (fun s => s.submissionId == k) =
      d.syncedSubmissions.find? (fun s => s.submissionId == k) := by
  unfold syncGradingData
  cases hses : d.teacherSession with
  | none => rfl
  | some session =>
    cases env.pullOutcome with
    | thrown => rfl
    | response ok =>
      cases ok with
      | false => rfl
      | true =>
        dsimp only
        rw [(cachePulledImages_frame env _ _).2.2.1]
        rw [show (cacheSyncedSubmissions d ((serverGradingGet srv2
            session.userId).map (mapPulledSubmission session.userId
            env.now))).syncedSubmissions =
          ((serverGradingGet srv2 session.userId).map (mapPulledSubmission
            session.userId env.now)).foldl putSyncedSubmission
            d.syncedSubmissions from rfl]
        apply bulkPutFold_find_preserve
        intro y hy
        obtain ⟨y0, hy0, heq⟩ := List.mem_map.mp hy
        obtain ⟨hy0mem, hy0f⟩ := List.mem_filter.mp hy0
        simp only [Bool.and_eq_true, decide_eq_true_eq, beq_iff_eq] at hy0f
        rw [← heq]
        exact hnokey session hses y0 hy0mem hy0f.1 hy0f.2


/-- C1 (amended): an unsynced edit is never pushed — the pending-grade
query is dead (the C2 bug) — so after any cycle with no pending
submissions the edit survives verbatim, still unsynced with its value, in
`offlineGrades`; and when the grading pull succeeds, the cached projection
for the edit's key is bulk-overwritten with the server row's value, with
no per-field protection of the unsynced local edit. -/
theorem c1_grade_merge_amended (env : SyncEnv) (st : SyncState) (db : DB)
    (srv : Server) (g : OfflineGrade) (sess : TeacherSession)
    (row : ServerSubmissionRow) (m : Int)
    (hst : st.isSyncing = false) (hthrow : env.throwEarly = none)
    (_hg : g ∈ db.offlineGrades) (_hgsync : g.synced = false)
    (hpend : getPendingSubmissions db = [])
    (hsess : db.teacherSession = some sess)
    (hpull : env.pullOutcome = HttpOutcome.response true)
    (hrow : row ∈ srv.gradingSubs)
    (hrowid : row.submission_id = g.submissionId)
    (hrowt : row.submitted_by_teacher = sess.userId)
    (hstatus : row.status = "pending")
    (hans : (row.subjectiveAnswers.find? (fun a => a.answer_id == g.answerId)).map
        (fun a => a.marks_awarded) = some (some m))
    (hkeys : (srv.gradingSubs.map (fun r => r.submission_id)).Nodup) :
    (performSync env st db srv).db.offlineGrades = db.offlineGrades ∧
    snapshotMarks (performSync env st db srv).db g.submissionId g.answerId =
      some m := by
  rw [performSync_run env st db srv hst hthrow]
  dsimp only
  have hdb1subs : (if shouldSyncSchools db env.now then syncSchools env db
      else db).offlineSubmissions = db.offlineSubmissions := by
    split
    · exact (syncSchools_frame env db).1
    · rfl
  have hdb1g : (if shouldSyncSchools db env.now then syncSchools env db
      else db).offlineGrades = db.offlineGrades := by
    split
    · exact (syncSchools_frame env db).2.2.1
    · rfl
  have hdb1sess : (if shouldSyncSchools db env.now then syncSchools env db
      else db).teacherSession = db.teacherSession := by
    split
    · exact (syncSchools_frame env db).2.2.2.2
    · rfl
  set db1 := if shouldSyncSchools db env.now then syncSchools env db else db
    with hdb1def
  have hpend1 : getPendingSubmissions db1 = [] := by
    unfold getPendingSubmissions
    rw [hdb1subs]
    exact hpend
  rw [hpend1, List.foldl_nil, pushOfflineGrades_noop env db1 srv]
  dsimp only
  constructor
  · rw [(syncGradingData_frame env db1 srv).2.1, hdb1g]
  · exact syncGradingData_reflects env db1 srv sess { g with marks := m } row
      (by rw [hdb1sess]; exact hsess) hpull hrow hkeys hrowid hrowt hstatus hans

/-- Witness for the amended grade-merge theorem at the concrete edited
grade (4 marks, unsynced) and server row (2 marks): the cycle leaves the
edit untouched and unsynced, yet the projection ends showing the server's
2. -/
theorem c1_grade_merge_amended_witness :
    (performSync envPushFails { isSyncing := false } dbWithEdit
        serverWithRow10).db.offlineGrades = dbWithEdit.offlineGrades ∧
    snapshotMarks (performSync envPushFails { isSyncing := false } dbWithEdit
        serverWithRow10).db grade10x9.submissionId grade10x9.answerId =
      some 2 :=
  c1_grade_merge_amended envPushFails { isSyncing := false } dbWithEdit
    serverWithRow10 grade10x9 teacherSession7 serverRow10 2
    rfl rfl (by decide) (by decide) (by decide) rfl rfl (by decide)
    (by decide) (by decide) (by decide) (by decide) (by decide)

end FormApp
